import Mathlib

/-!
Verification development for the component instantiation engine in
`src/backend/bisheng/interface/initialize/loading.py`.

The Python module is shallowly embedded: Python values flowing through the
parameter dictionaries are modelled by the inductive type `Val` (with the
tuple/list distinction that several branches test via `isinstance(x, list)`),
Python exceptions by the type `Err`, and fallible code by `Except Err`.
External collaborators (settings store, permission directory, langchain
objects, httpx clients, ...) are supplied as explicit function parameters
bundled in `Env`, so every theorem quantifies over their behaviour.
-/

namespace BishengLoading

/-- A Python runtime value as it appears in the parameter dictionary of a node.
`vtuple` and `vlist` are kept distinct because the source dispatches on
`isinstance(x, list)`.  `vobj` is an opaque handle to an upstream built
object; its attributes (`input_keys`, `name`, `as_retriever`, ...) are
resolved through the environment.  `vcallable` stands for function values
(builtins such as `str`, or closures such as the file filter).
`vexec` is an `AgentExecutor.from_agent_and_tools(...)` result and
`vfilterRet` a `VectorStoreFilterRetriever(...)` wrapper. -/
inductive Val where
  | vnull
  | vbool (b : Bool)
  | vint (n : Int)
  | vstr (s : String)
  | vlist (vs : List Val)
  | vtuple (vs : List Val)
  | vset (vs : List Val)
  | vdict (kvs : List (String × Val))
  | vobj (o : Nat)
  | vcallable (tag : String) (data : List String)
  | vexec (agent : Val) (tools : Val) (handle_parsing_errors : Bool)
  | vfilterRet (vectorstore : Val) (search_type : Option Val)
      (search_kwargs : Option Val) (access_url : String)

/-- Whether a value is hashable in the Python sense: lists, sets and dicts
are not, so the `set` builtin rejects them. -/
def pyHashable : Val → Bool
  | .vlist _ => false
  | .vset _ => false
  | .vdict _ => false
  | _ => true

/-- Equality of hashable scalar values.  Tuples are compared one level deep
(tuples of scalars are the fragment the set conversion meets); opaque
runtime objects compare by handle identity, as default Python object
equality does. -/
def scalarBeq : Val → Val → Bool
  | .vnull, .vnull => true
  | .vbool a, .vbool b => a == b
  | .vint a, .vint b => a == b
  | .vstr a, .vstr b => a == b
  | .vobj a, .vobj b => a == b
  | .vcallable t1 d1, .vcallable t2 d2 => t1 == t2 && d1 == d2
  | _, _ => false

/-- Equality of hashable values, descending one level into tuples. -/
def hashableBeq : Val → Val → Bool
  | .vtuple xs, .vtuple ys =>
    xs.length == ys.length && (xs.zip ys).all (fun p => scalarBeq p.1 p.2)
  | a, b => scalarBeq a b

/-- A Python exception, tagged by its class and carrying its message. -/
inductive Err where
  | keyError (k : String)
  | typeError (m : String)
  | indexError
  | attributeError (m : String)
  | valueError (m : String)
  | validationError (m : String)
  | jsonDecodeError
  | exc (m : String)
deriving DecidableEq

/-- The message text of an exception, as `str(exc)` would render it. -/
def errStr : Err → String
  | .keyError k => k
  | .typeError m => m
  | .indexError => "list index out of range"
  | .attributeError m => m
  | .valueError m => m
  | .validationError m => m
  | .jsonDecodeError => "Expecting value"
  | .exc m => m

/-- A Python dict with string keys, modelled as an insertion-ordered
association list with unique keys. -/
abbrev Params := List (String × Val)

/-- Dictionary lookup, `params.get(k)`. -/
def dictGet (d : Params) (k : String) : Option Val :=
  (d.find? (fun kv => kv.1 == k)).map (·.2)

/-- Dictionary lookup with a default, `params.get(k, v0)`. -/
def dictGetD (d : Params) (k : String) (v0 : Val) : Val :=
  (dictGet d k).getD v0

/-- Membership test, `k in params`. -/
def dictContains (d : Params) (k : String) : Bool :=
  d.any (fun kv => kv.1 == k)

/-- Assignment `params[k] = v`: an existing key (keys are unique) is updated
in place, a new key is appended, matching CPython insertion-order
semantics. -/
def dictSet (d : Params) (k : String) (v : Val) : Params :=
  match d with
  | [] => [(k, v)]
  | kv :: rest => if kv.1 == k then (k, v) :: rest else kv :: dictSet rest k v

/-- Removal `params.pop(k, default)` disregarding the returned value. -/
def dictPop (d : Params) (k : String) : Params :=
  d.filter (fun kv => kv.1 != k)

/-- Lookup in a string-keyed association list of arbitrary payload. -/
def lookupStr {α : Type} (d : List (String × α)) (k : String) : Option α :=
  (d.find? (fun kv => kv.1 == k)).map (·.2)

/-- Python truthiness of a value. -/
def valTruthy : Val → Bool
  | .vnull => false
  | .vbool b => b
  | .vint n => n != 0
  | .vstr s => s != ""
  | .vlist vs => !vs.isEmpty
  | .vtuple vs => !vs.isEmpty
  | .vset vs => !vs.isEmpty
  | .vdict kvs => !kvs.isEmpty
  | .vobj _ => true
  | .vcallable _ _ => true
  | .vexec _ _ _ => true
  | .vfilterRet _ _ _ _ => true

/-- Subscripting `v[i]` for the contained index: lists, tuples and strings
are subscriptable (a string yields a one-character string), everything else
raises `TypeError`. -/
def valIndex : Val → Nat → Except Err Val
  | .vlist vs, i =>
      match vs.get? i with
      | some v => .ok v
      | none => .error .indexError
  | .vtuple vs, i =>
      match vs.get? i with
      | some v => .ok v
      | none => .error .indexError
  | .vstr s, i =>
      match s.data.get? i with
      | some c => .ok (.vstr c.toString)
      | none => .error .indexError
  | _, _ => .error (.typeError "object is not subscriptable")

/-- Iteration `for x in v`: lists, tuples and sets yield their elements, a
string its characters, a dict its keys; everything else raises `TypeError`. -/
def valIter : Val → Except Err (List Val)
  | .vlist vs => .ok vs
  | .vtuple vs => .ok vs
  | .vset vs => .ok vs
  | .vstr s => .ok (s.data.map (fun c => Val.vstr c.toString))
  | .vdict kvs => .ok (kvs.map (fun kv => Val.vstr kv.1))
  | _ => .error (.typeError "object is not iterable")

/-- Effectful map over a list in the `Except` monad, head first, matching a
Python comprehension that may raise. -/
def mapME {α β : Type} (f : α → Except Err β) : List α → Except Err (List β)
  | [] => .ok []
  | a :: as => do
    let b ← f a
    let bs ← mapME f as
    pure (b :: bs)

/-- First-occurrence deduplication, modelling the element set retained by a
CPython `set` (iteration order of a CPython set is hash-dependent; insertion
order is the deterministic stand-in used throughout this embedding). -/
def pyDedup (vs : List Val) : List Val :=
  vs.foldl (fun acc v => if acc.any (hashableBeq v) then acc else acc ++ [v]) []

/-- The same deduplication for lists of strings. -/
def pyDedupStr (vs : List String) : List String :=
  vs.foldl (fun acc v => if acc.contains v then acc else acc ++ [v]) []

/-- The `set(...)` builtin: a set is returned unchanged, any other iterable
has its hashable elements deduplicated; a non-iterable or an unhashable
element raises `TypeError`. -/
def pySetOf (v : Val) : Except Err Val :=
  match v with
  | .vset vs => .ok (.vset vs)
  | other => do
    let vs ← valIter other
    if vs.all pyHashable then .ok (.vset (pyDedup vs))
    else .error (.typeError "unhashable type")

/-- Bool-valued substring test: `needle in hay` on strings. -/
def containsSubstr (needle hay : String) : Bool :=
  (List.range (hay.data.length + 1)).any
    (fun i => needle.data.isPrefixOf (hay.data.drop i))

/-- Rendering of a value into a format string, as in an f-string. -/
def pyStr : Val → String
  | .vstr s => s
  | .vint n => toString n
  | .vbool true => "True"
  | .vbool false => "False"
  | .vnull => "None"
  | _ => "object"

/-- The opening curly brace character. -/
def lbraceChar : Char := Char.ofNat 123

/-- The closing curly brace character. -/
def rbraceChar : Char := Char.ofNat 125

/-- JSON whitespace skipping. -/
def jsonSkipWs (cs : List Char) : List Char :=
  cs.dropWhile (fun c => c == ' ' || c == '\n' || c == '\t' || c == '\r')

/-- Parse the body of a JSON string literal after the opening quote,
returning the decoded characters and the remaining input.  The recognised
escapes are the single-character JSON escapes; `\u` sequences are outside
the modelled fragment. -/
def jsonParseStr : Nat → List Char → Option (List Char × List Char)
  | 0, _ => none
  | _, [] => none
  | fuel + 1, c :: rest =>
    if c == '"' then some ([], rest)
    else if c == '\\' then
      match rest with
      | [] => none
      | e :: rest2 =>
        let ec : Option Char :=
          if e == 'n' then some '\n'
          else if e == 't' then some '\t'
          else if e == 'r' then some '\r'
          else if e == '"' then some '"'
          else if e == '\\' then some '\\'
          else if e == '/' then some '/'
          else if e == 'b' then some (Char.ofNat 8)
          else if e == 'f' then some (Char.ofNat 12)
          else none
        match ec with
        | some d =>
          (jsonParseStr fuel rest2).map (fun p => (d :: p.1, p.2))
        | none => none
    else (jsonParseStr fuel rest).map (fun p => (c :: p.1, p.2))

/-- Parse a JSON integer from its digit characters. -/
def jsonParseNat (ds : List Char) : Option Nat :=
  if ds.isEmpty then none
  else some (ds.foldl (fun n c => n * 10 + (c.toNat - 48)) 0)

mutual

/-- Parse one JSON value (fuel-indexed recursive-descent on the fragment
of null, booleans, integers, strings, arrays and objects). -/
def jsonParseVal : Nat → List Char → Option (Val × List Char)
  | 0, _ => none
  | fuel + 1, cs =>
    match jsonSkipWs cs with
    | [] => none
    | c :: rest =>
      if c == 'n' then
        match rest with
        | 'u' :: 'l' :: 'l' :: r => some (.vnull, r)
        | _ => none
      else if c == 't' then
        match rest with
        | 'r' :: 'u' :: 'e' :: r => some (.vbool true, r)
        | _ => none
      else if c == 'f' then
        match rest with
        | 'a' :: 'l' :: 's' :: 'e' :: r => some (.vbool false, r)
        | _ => none
      else if c == '"' then
        (jsonParseStr fuel rest).map (fun p => (.vstr (String.mk p.1), p.2))
      else if c == '[' then
        match jsonSkipWs rest with
        | ']' :: r => some (.vlist [], r)
        | r => (jsonParseItems fuel r).map (fun p => (.vlist p.1, p.2))
      else if c == lbraceChar then
        match jsonSkipWs rest with
        | r =>
          if r.headD ' ' == rbraceChar then some (.vdict [], r.tail)
          else (jsonParseFields fuel r).map (fun p => (.vdict p.1, p.2))
      else if c == '-' then
        let ds := rest.takeWhile (fun d => d.isDigit)
        match jsonParseNat ds with
        | some n =>
          if ds.isEmpty then none
          else some (.vint (-(n : Int)), rest.dropWhile (fun d => d.isDigit))
        | none => none
      else if c.isDigit then
        let ds := (c :: rest).takeWhile (fun d => d.isDigit)
        match jsonParseNat ds with
        | some n => some (.vint (n : Int), (c :: rest).dropWhile (fun d => d.isDigit))
        | none => none
      else none

/-- Parse the comma-separated items of a non-empty JSON array, up to and
including the closing bracket. -/
def jsonParseItems : Nat → List Char → Option (List Val × List Char)
  | 0, _ => none
  | fuel + 1, cs =>
    match jsonParseVal fuel cs with
    | none => none
    | some (v, rest) =>
      match jsonSkipWs rest with
      | ',' :: r =>
        (jsonParseItems fuel r).map (fun p => (v :: p.1, p.2))
      | ']' :: r => some ([v], r)
      | _ => none

/-- Parse the comma-separated fields of a non-empty JSON object, up to and
including the closing brace. -/
def jsonParseFields : Nat → List Char → Option (List (String × Val) × List Char)
  | 0, _ => none
  | fuel + 1, cs =>
    match jsonSkipWs cs with
    | '"' :: rest =>
      match jsonParseStr fuel rest with
      | none => none
      | some (key, rest2) =>
        match jsonSkipWs rest2 with
        | ':' :: rest3 =>
          match jsonParseVal fuel rest3 with
          | none => none
          | some (v, rest4) =>
            match jsonSkipWs rest4 with
            | ',' :: r =>
              (jsonParseFields fuel r).map
                (fun p => ((String.mk key, v) :: p.1, p.2))
            | r =>
              if r.headD ' ' == rbraceChar then
                some ([(String.mk key, v)], r.tail)
              else none
        | _ => none
    | _ => none

end

/-- The `json.loads` collaborator, modelled on the fragment of null,
booleans, integers, strings, arrays and objects; trailing non-whitespace or
any text outside the fragment fails, as the real decoder raises
`JSONDecodeError`. -/
def jsonLoads (s : String) : Option Val :=
  match jsonParseVal (s.data.length + 1) s.data with
  | some (v, rest) => if (jsonSkipWs rest).isEmpty then some v else none
  | none => none

/-- One conditional set conversion, `if key in params: params[key] =
set(params[key])`. -/
def setStep (key : String) (params : Params) : Except Err Params :=
  match dictGet params key with
  | some v => (pySetOf v).map (fun s => dictSet params key s)
  | none => .ok params

/-- Source `loading.py` lines 76-84, `convert_params_to_sets`: the
`allowed_special` and `disallowed_special` parameters are passed through the
`set` builtin and the internal `input_node` key is dropped. -/
def convert_params_to_sets (params : Params) : Except Err Params := do
  let params ← setStep "allowed_special" params
  let params ← setStep "disallowed_special" params
  pure (dictPop params "input_node")

/-- A parameter name subject to JSON decoding: it contains `kwargs` or
`config`. -/
def isKwargsKey (k : String) : Bool :=
  containsSubstr "kwargs" k || containsSubstr "config" k

/-- The treatment of one entry by `convert_kwargs`: a textual value under a
kwargs/config name is decoded, any other entry passes through. -/
def kwargsEntry (kv : String × Val) : Except Err (String × Val) :=
  match kv with
  | (k, .vstr s) =>
    if isKwargsKey k then
      match jsonLoads s with
      | some v => .ok (k, v)
      | none => .error .jsonDecodeError
    else .ok (k, .vstr s)
  | kv => .ok kv

/-- Source `loading.py` lines 87-94, `convert_kwargs`: every textual
parameter whose name contains `kwargs` or `config` is decoded with
`json.loads`. -/
def convert_kwargs (params : Params) : Except Err Params :=
  mapME kwargsEntry params

/-- The parameter normalization applied by `instantiate_class` (source
lines 58-59): set conversion followed by kwargs decoding. -/
def normalize (params : Params) : Except Err Params := do
  let p1 ← convert_params_to_sets params
  convert_kwargs p1

/-- A row of the knowledge directory returned by the `KnowledgeDao`
collaborator for the vectorstore permission filter. -/
structure Knowledge where
  id : Int
  collection_name : String
  index_name : String
  model : String

/-- A loaded document, as far as the loader strategy observes it: an object
carrying a mutable `metadata` mapping. -/
structure Doc where
  metadata : List (String × Val)

/-- The resolved `ClassHandle` of a node type: its name, its pydantic
field names, its `getattr`-reachable class methods, its constructor
`class_object(**params)` and its `from_documents` builder. -/
structure ClassObject where
  name : String
  fields : List String
  methods : List (String × (Params → Except Err Val))
  call : Params → Except Err Val
  from_documents : Params → Except Err Val

/-- `getattr(class_object, m, None)`. -/
def lookupMethod (cls : ClassObject) (m : String) : Option (Params → Except Err Val) :=
  lookupStr cls.methods m

/-- The external collaborators of the module, supplied explicitly:
the settings store entry `file_access`, attribute access on opaque upstream
objects, the knowledge-permission directory, embedding resolution and the
per-backend vectorstore, loader and splitter callbacks. -/
structure Env where
  file_access : Option String
  has_as_retriever : Val → Bool
  as_retriever0 : Val → Val
  as_retriever2 : Val → Val → Val → Val
  input_keys : Nat → List String
  is_base_tool : Val → Bool
  tool_name : Val → Except Err Val
  judge_knowledge_permission : Val → List Val → List Knowledge
  get_list_by_ids : List Val → List Knowledge
  decide_embeddings : String → Val
  fake_embedding : Val
  vecstore_init : String → Option (Params → Val → Except Err Val)
  split_documents : Val → Val → Except Err Val
  language_of : Val → Except Err Val
  load_of : Val → Except Err (List Doc)
  text_of : Val → Except Err Val
  file_download : Val → Except Err (Val × Val)

/-- Last-occurrence index of a string in a list, modelling the dict
comprehension over `enumerate(...)` in which a duplicated key keeps the
last index. -/
def lastIdx (ids : List String) (s : String) : Option Nat :=
  match ids with
  | [] => none
  | a :: tl =>
    match lastIdx tl s with
    | some i => some (i + 1)
    | none => if a == s then some 0 else none

/-- One step of the `SequentialChain` reorder comprehension
`chains_origin[chains_dict.get(id)]`: the parsed order entry is looked up in
the id-to-index mapping (a non-string or unknown id leaves `dict.get`
returning `None`, so the list subscript raises `TypeError`), and the
sub-chain at that index is selected. -/
def seq_pick (chainsOrigin : Option Val) (ids : List String) (oid : Val) :
    Except Err Val := do
  let idx ←
    match oid with
    | .vstr s =>
      match lastIdx ids s with
      | some i => pure i
      | none => Except.error (.typeError "list indices must be integers")
    | _ => Except.error (.typeError "list indices must be integers")
  match chainsOrigin with
  | some co => valIndex co idx
  | none => Except.error (.typeError "NoneType is not subscriptable")

/-- Source lines 325-372, the parameter preparation performed by
`instantiate_chains` ahead of construction: retriever wrapping behind the
optional access-control adapter, the `SequentialChain` reorder, `headers`
decoding, and the `ConversationalRetrievalChain` / `MultiPromptChain` /
`MultiRuleChain` parameter reshaping. -/
def chains_prepare (env : Env) (node_type : String) (params : Params)
    (id_dict : List (String × List String)) : Except Err Params := do
  let params ←
    match dictGet params "retriever" with
    | some r =>
      let user_name := dictGetD params "user_name" (.vstr "")
      let params := dictPop params "user_name"
      if env.has_as_retriever r then
        match env.file_access with
        | some fa =>
          pure (dictSet params "retriever"
            (.vfilterRet r none none (fa ++ "?username=" ++ pyStr user_name)))
        | none => pure (dictSet params "retriever" (env.as_retriever0 r))
      else pure params
    | none => pure params
  let params ←
    if node_type == "SequentialChain" then do
      let params := dictPop params "input_node"
      let chainOrder ←
        match dictGet params "chain_order" with
        | some (.vstr s) =>
          match jsonLoads s with
          | some v => pure v
          | none => Except.error (.exc "chain_order 不是标准数组")
        | _ => Except.error (.exc "chain_order 不是标准数组")
      let params := dictPop params "chain_order"
      let chainsOrigin := dictGet params "chains"
      let ids ←
        match lookupStr id_dict "chains" with
        | some ids => pure ids
        | none => Except.error (.typeError "NoneType is not iterable")
      let orderIds ← valIter chainOrder
      let newChains ← mapME (seq_pick chainsOrigin ids) orderIds
      pure (dictSet params "chains" (.vlist newChains))
    else pure params
  let params ←
    match dictGet params "headers" with
    | some (.vstr s) =>
      match jsonLoads s with
      | some v => pure (dictSet params "headers" v)
      | none => Except.error .jsonDecodeError
    | _ => pure params
  let params :=
    if node_type == "ConversationalRetrievalChain" then
      let cdk := dictGetD params "combine_docs_chain_kwargs" .vnull
      let dp := dictGetD params "document_prompt" .vnull
      let params := dictPop (dictPop params "combine_docs_chain_kwargs") "document_prompt"
      let params := dictSet params "get_chat_history" (.vcallable "str" [])
      dictSet params "combine_docs_chain_kwargs"
        (.vdict (([("prompt", cdk), ("document_prompt", dp)]).filter
          (fun kv => match kv.2 with | .vnull => false | _ => true)))
    else params
  if node_type == "MultiPromptChain" || node_type == "MultiRuleChain" then do
    let dcn ←
      match dictGet params "destination_chain_name" with
      | some v => pure v
      | none => Except.error (.keyError "destination_chain_name")
    let llmChains ←
      match dictGet params "LLMChains" with
      | some v => pure v
      | none => Except.error (.keyError "LLMChains")
    let items ←
      match dcn with
      | .vdict kvs => pure kvs
      | _ => Except.error (.attributeError "items")
    let dest ← (items.enum.foldlM (fun acc p => do
      let nameStr ←
        match p.2.2 with
        | .vstr s => pure s
        | _ => Except.error (.typeError "unhashable or non-string chain name")
      let c ← valIndex llmChains p.1
      pure (dictSet acc nameStr c)) ([] : Params))
    let params := dictPop (dictPop params "LLMChains") "destination_chain_name"
    pure (dictSet params "destination_chains" (.vdict dest))
  else pure params

/-- Source lines 373-378, the construction dispatch of `instantiate_chains`:
a registered factory method is invoked when the class has it, a registered
but missing method raises, and an unregistered type is built by default
construction. -/
def chains_dispatch (from_method_nodes : List (String × String))
    (node_type : String) (cls : ClassObject) (params : Params) : Except Err Val :=
  match lookupStr from_method_nodes node_type with
  | some m =>
    match lookupMethod cls m with
    | some f => f params
    | none => .error (.valueError ("Method " ++ m ++ " not found in " ++ cls.name))
  | none => cls.call params

/-- Source lines 324-378, `instantiate_chains`. -/
def instantiate_chains (from_method_nodes : List (String × String)) (env : Env)
    (node_type : String) (cls : ClassObject) (params : Params)
    (id_dict : List (String × List String)) : Except Err Val := do
  let p ← chains_prepare env node_type params id_dict
  chains_dispatch from_method_nodes node_type cls p

/-- Source lines 630-649, `load_agent_executor`: builds the policy object
from the allow-listed tool names plus the chain, then wraps it into an
executor that absorbs tool-call parsing errors. -/
def load_agent_executor (env : Env) (cls : ClassObject) (params : Params) :
    Except Err Val := do
  let allowed_tools := dictGetD params "allowed_tools" (.vlist [])
  let llm_chain ←
    match dictGet params "llm_chain" with
    | some v => pure v
    | none => Except.error (.keyError "llm_chain")
  let allowed_tools :=
    match allowed_tools with
    | .vlist vs => Val.vlist vs
    | .vset vs => Val.vset vs
    | t => if env.is_base_tool t then Val.vlist [t] else t
  let elems ← valIter allowed_tools
  let tool_names ← mapME env.tool_name elems
  let agent ← cls.call [("allowed_tools", .vlist tool_names), ("llm_chain", llm_chain)]
  pure (.vexec agent allowed_tools true)

/-- Source lines 381-390, `instantiate_agent`: a registered factory method
produces the policy object which is wrapped with its tools into an executor
with `handle_parsing_errors=True`; when the class lacks the method, or no
method is registered, control falls through to `load_agent_executor`. -/
def instantiate_agent (from_method_nodes : List (String × String)) (env : Env)
    (node_type : String) (cls : ClassObject) (params : Params) : Except Err Val :=
  match lookupStr from_method_nodes node_type with
  | some m =>
    match lookupMethod cls m with
    | some f => do
      let agent ← f params
      let tools := dictGetD params "tools" (.vlist [])
      pure (.vexec agent tools true)
    | none => load_agent_executor env cls params
  | none => load_agent_executor env cls params

/-- Source lines 287-299, the parameter cleanup performed by
`instantiate_memory` ahead of construction: drop `memory_key` for entity
memory, drop empty `input_key`/`output_key`, convert a retriever-capable
parameter. -/
def memory_params (env : Env) (node_type : String) (params : Params) : Params :=
  let params :=
    if node_type == "ConversationEntityMemory" then dictPop params "memory_key"
    else params
  let params := (["input_key", "output_key"]).foldl (fun ps k =>
    match dictGet ps k with
    | some v => if valTruthy v then ps else dictPop ps k
    | none => ps) params
  match dictGet params "retriever" with
  | some r =>
    if env.has_as_retriever r then dictSet params "retriever" (env.as_retriever0 r)
    else params
  | none => params

/-- The substring test of source lines 304-305 identifying a known
connection/cursor construction failure. -/
def isConnectionErrText (s : String) : Bool :=
  containsSubstr "object has no attribute 'cursor'" s ||
    containsSubstr "object has no field \"conn\"" s

/-- Source lines 287-309, `instantiate_memory`: construction failures whose
message matches the known connection/cursor text are re-labeled into an
actionable connection-configuration `AttributeError`, every other failure
propagates unchanged. -/
def instantiate_memory (env : Env) (node_type : String) (cls : ClassObject)
    (params : Params) : Except Err Val :=
  match cls.call (memory_params env node_type params) with
  | .ok v => .ok v
  | .error e =>
    if isConnectionErrText (errStr e) then
      .error (.attributeError
        ("Failed to build connection to database. Please check your connection string and try again. Error: "
          ++ errStr e))
    else .error e

/-- Source lines 458-466, the parameter adjustment performed by
`instantiate_embedding` ahead of construction: proxy clients are attached
when `openai_proxy` is set, and token-length checking is disabled for
`OpenAIEmbeddings`. -/
def embedding_params (cls : ClassObject) (params : Params) : Params :=
  let params :=
    if valTruthy (dictGetD params "openai_proxy" .vnull) then
      let proxy := pyStr (dictGetD params "openai_proxy" .vnull)
      let params := dictSet params "http_client" (.vcallable "httpx.Client" [proxy])
      let params := dictSet params "http_async_client" (.vcallable "httpx.AsyncClient" [proxy])
      dictPop params "openai_proxy"
    else params
  if cls.name == "OpenAIEmbeddings" then
    dictSet params "check_embedding_ctx_length" (.vbool false)
  else params

/-- Source lines 458-471, `instantiate_embedding`: default construction,
except that a `ValidationError` is caught and construction is retried once
with the parameters restricted to the declared fields of the class. -/
def instantiate_embedding (cls : ClassObject) (params : Params) :
    Except Err Val :=
  let p := embedding_params cls params
  match cls.call p with
  | .ok v => .ok v
  | .error (.validationError _) =>
    cls.call (p.filter (fun kv => cls.fields.contains kv.1))
  | .error e => .error e

/-- Extraction of the candidate knowledge ids, source line 489:
`[one['key'] for one in params[col_name]]`. -/
def extract_keys (colv : Val) : Except Err (List Val) := do
  let ones ← valIter colv
  mapME (fun one =>
    match one with
    | .vdict kvs =>
      match lookupStr kvs "key" with
      | some v => Except.ok v
      | none => Except.error (.keyError "key")
    | _ => Except.error (.typeError "object is not subscriptable")) ones

/-- The Milvus rebuild of source lines 500-511: collection names,
per-collection embeddings and partition keys from the permitted rows, and
the default embedding, falling back to the fake embedding when no
collection is permitted. -/
def milvus_rewrite (env : Env) (ks : List Knowledge) (params : Params) : Params :=
  dictSet
    (dictSet
      (dictSet
        (dictSet params "collection_name"
          (.vlist (ks.map (fun k => Val.vstr k.collection_name))))
        "collection_embeddings"
        (.vlist (ks.map (fun k => env.decide_embeddings k.model))))
      "partition_keys"
      (.vlist (ks.map (fun k =>
        if k.collection_name.startsWith "partition" then Val.vint k.id
        else Val.vnull))))
    "embedding"
    ((ks.map (fun k => env.decide_embeddings k.model)).headD env.fake_embedding)

/-- The Elasticsearch rebuild of source lines 513-515: index names, with
the collection name as fallback when a row has no index name. -/
def es_rewrite (ks : List Knowledge) (params : Params) : Params :=
  dictSet params "index_name"
    (.vlist (ks.map (fun k =>
      Val.vstr (if k.index_name == "" then k.collection_name else k.index_name))))

/-- Source lines 483-515, the permission filter of `instantiate_vectorstore`
for the two permission-checked backends: the candidate collections are
narrowed to the rows the identity may access; for the Milvus backend the
collection names, per-collection embeddings, partition keys and the default
embedding (a fake embedding when no collection is permitted) are rebuilt,
for the Elasticsearch backend the index names are rebuilt. -/
def vectorstore_filter (env : Env) (node_type : String) (user_name : Val)
    (params : Params) : Except Err Params := do
  let col_name :=
    if node_type == "ElasticsearchWithPermissionCheck" then "index_name"
    else "collection_name"
  let colv ←
    match dictGet params col_name with
    | some v => pure v
    | none => Except.error (.keyError col_name)
  let knowledge_ids ← extract_keys colv
  let is_check := dictGetD params "_is_check_auth" (.vbool true)
  let params := dictPop params "_is_check_auth"
  let knowledge_list :=
    if valTruthy is_check then env.judge_knowledge_permission user_name knowledge_ids
    else env.get_list_by_ids knowledge_ids
  if node_type == "MilvusWithPermissionCheck" then
    pure (milvus_rewrite env knowledge_list params)
  else
    pure (es_rewrite knowledge_list params)

/-- Source lines 474-536, `instantiate_vectorstore`. -/
def instantiate_vectorstore (env : Env) (node_type : String) (cls : ClassObject)
    (params : Params) : Except Err Val := do
  let user_name := dictGetD params "user_name" (.vstr "")
  let params := dictPop params "user_name"
  let search_kwargs := dictGetD params "search_kwargs" (.vdict [])
  let params := dictPop params "search_kwargs"
  let search_type := dictGetD params "search_type" (.vstr "similarity")
  let params := dictPop params "search_type"
  let params :=
    if dictContains params "documents" then params
    else dictSet params "documents" (.vlist [])
  let params ←
    if node_type == "MilvusWithPermissionCheck" ||
        node_type == "ElasticsearchWithPermissionCheck" then
      vectorstore_filter env node_type user_name params
    else pure params
  let vecstore ←
    match env.vecstore_init cls.name with
    | some init => init params search_kwargs
    | none =>
      let params :=
        match dictGet params "texts" with
        | some t => dictSet (dictPop params "texts") "documents" t
        | none => params
      cls.from_documents params
  if valTruthy search_kwargs && env.has_as_retriever vecstore then
    match env.file_access with
    | some fa =>
      pure (.vfilterRet vecstore (some search_type) (some search_kwargs)
        (fa ++ "?username=" ++ pyStr user_name))
    | none => pure (env.as_retriever2 vecstore search_type search_kwargs)
  else pure vecstore

/-- A prompt template object as observed by `instantiate_prompt`: its
`input_variables` attribute when it has one, and its nested `prompt`
attribute when it has one. -/
inductive PromptObj where
  | mk (input_variables : Option (List String)) (sub : Option PromptObj)

/-- The `input_variables` attribute of a prompt object. -/
def PromptObj.vars : PromptObj → Option (List String)
  | .mk iv _ => iv

/-- The nested `prompt` attribute of a prompt object. -/
def PromptObj.sub : PromptObj → Option PromptObj
  | .mk _ s => s

/-- The assignment of the reordered variable list, source lines 406-409: a
nested sub-template exposing `input_variables` receives the order,
otherwise the template itself does when it exposes them. -/
def promptSetVars (p : PromptObj) (ord : List String) : PromptObj :=
  match p with
  | .mk iv (some (.mk (some _) ssub)) => .mk iv (some (.mk (some ord) ssub))
  | .mk (some _) sub => .mk (some ord) sub
  | p => p

/-- Source lines 393-410, `instantiate_prompt`.  The three helpers
`handle_node_type`, `handle_format_kwargs` and `handle_partial_variables`
live in `bisheng.interface.initialize.utils` outside this module and are
supplied as collaborators.  The set difference and intersection of the
source are modelled on first-occurrence-deduplicated lists. -/
def instantiate_prompt
    (handle_node_type : String → ClassObject → Params → Except Err (Params × PromptObj))
    (handle_format_kwargs : PromptObj → Params → Params)
    (handle_partial_variables : PromptObj → Params → Except Err PromptObj)
    (node_type : String) (cls : ClassObject) (params : Params)
    (param_id_dict : List (String × List String)) :
    Except Err (PromptObj × Params) := do
  let (params, prompt) ← handle_node_type node_type cls params
  let format_kwargs := handle_format_kwargs prompt params
  let prompt ←
    if format_kwargs.isEmpty then pure prompt
    else handle_partial_variables prompt format_kwargs
  let vars ←
    match prompt.vars with
    | some vs => pure vs
    | none => Except.error (.attributeError "input_variables")
  let no_human_input := pyDedupStr (param_id_dict.map (·.1))
  let human_input := (pyDedupStr vars).filter (fun v => !no_human_input.contains v)
  let order_input :=
    human_input ++ (pyDedupStr vars).filter (fun v => no_human_input.contains v)
  let prompt :=
    if 1 < order_input.length then promptSetVars prompt order_input else prompt
  pure (prompt, format_kwargs)

/-- The `unicode-escape` decoding applied to the `separators` parameter
(source line 597), modelled on the single-character escapes; an
unrecognised escape is kept verbatim as the codec keeps it. -/
def unicodeUnescape (cs : List Char) : List Char :=
  match cs with
  | [] => []
  | '\\' :: e :: rest =>
    if e == 'n' then '\n' :: unicodeUnescape rest
    else if e == 't' then '\t' :: unicodeUnescape rest
    else if e == 'r' then '\r' :: unicodeUnescape rest
    else if e == '\\' then '\\' :: unicodeUnescape rest
    else '\\' :: e :: unicodeUnescape rest
  | c :: rest => c :: unicodeUnescape rest

/-- Source lines 579-607, `instantiate_textsplitter`: a missing `documents`
parameter raises, an empty one returns the empty list, and otherwise the
literal-separator or the language-aware construction path is selected by
the `separator_type` discriminator before splitting. -/
def instantiate_textsplitter (env : Env) (cls : ClassObject) (params : Params) :
    Except Err Val := do
  let documents ←
    match dictGet params "documents" with
    | some d => pure d
    | none =>
      Except.error (.valueError
        "The source you provided did not load correctly or was empty.Try changing the chunk_size of the Text Splitter.")
  let params := dictPop params "documents"
  if !valTruthy documents then pure (.vlist [])
  else
    let sepIsText :=
      match dictGet params "separator_type" with
      | some (.vstr s) => s == "Text"
      | some _ => false
      | none => true
    if sepIsText then do
      let params := dictPop params "separator_type"
      let params ←
        match dictGet params "separators" with
        | some (.vstr s) =>
          pure (dictSet params "separators" (.vstr (String.mk (unicodeUnescape s.data))))
        | some _ => Except.error (.attributeError "encode")
        | none => pure params
      let splitter ← cls.call params
      env.split_documents splitter documents
    else do
      let language := dictGetD params "separator_type" .vnull
      let params := dictPop params "separator_type"
      let lang ← env.language_of language
      let params := dictSet params "language" lang
      let params := dictPop params "separators"
      let splitter ←
        match lookupMethod cls "from_language" with
        | some f => f params
        | none => Except.error (.attributeError "from_language")
      env.split_documents splitter documents

/-- The metadata merge of source lines 567-574: a document without metadata
receives the supplied mapping, a document with metadata has the supplied
mapping merged in with `dict.update`. -/
def merge_metadata (metadata : List (String × Val)) (docs : List Doc) : List Doc :=
  if metadata.isEmpty then docs
  else docs.map (fun d =>
    if d.metadata.isEmpty then { metadata := metadata }
    else { metadata := metadata.foldl (fun acc kv => dictSet acc kv.1 kv.2) d.metadata })

/-- Source lines 539-576, `instantiate_documentloader`. -/
def instantiate_documentloader (env : Env) (cls : ClassObject) (params : Params) :
    Except Err (List Doc) := do
  let params ←
    match dictGet params "file_filter" with
    | some (.vstr s) =>
      pure (dictSet params "file_filter"
        (.vcallable "file_filter" ((s.splitOn ",").map (fun e => e.trim))))
    | some _ => Except.error (.attributeError "split")
    | none => pure params
  let params ←
    match dictGet params "file_path" with
    | some (.vlist fp) => do
      let file_name ←
        match fp.get? 1 with
        | some v => pure v
        | none => Except.error .indexError
      let first ←
        match fp.get? 0 with
        | some v => pure v
        | none => Except.error .indexError
      let params := dictSet params "file_path" first
      if cls.name == "ElemUnstructuredLoaderV0" then
        pure (dictSet params "file_name" file_name)
      else pure params
    | _ => pure params
  let metadata := dictGetD params "metadata" .vnull
  let params := dictPop params "metadata"
  let metadata ←
    match metadata with
    | .vstr s =>
      if valTruthy (.vstr s) then
        match jsonLoads s with
        | some v => pure v
        | none =>
          Except.error (.valueError "The metadata you provided is not a valid JSON string.")
      else pure (Val.vstr s)
    | m => pure m
  if dictContains params "file_path" &&
      !valTruthy (dictGetD params "file_path" .vnull) then
    pure []
  else do
    let obj ← cls.call params
    let docs ← env.load_of obj
    match metadata with
    | .vdict kvs => if kvs.isEmpty then pure docs else pure (merge_metadata kvs docs)
    | m =>
      -- A truthy non-mapping metadata value makes `dict.update` raise on the
      -- first document that already has metadata; that path is collapsed to
      -- the error case here, the falsy case skips the merge as the source does.
      if valTruthy m then Except.error (.typeError "metadata is not a mapping")
      else pure docs

/-- The reserved parameter key carrying the preset-question mapping,
imported from `bisheng.utils.constants` as `PRESET_QUESTION`. -/
def PRESET_QUESTION : String := "preset_question"

/-- First input key of a chain object: `chain.input_keys[0]`. -/
def first_input_key (env : Env) (c : Val) : Except Err String :=
  match c with
  | .vobj o =>
    match env.input_keys o with
    | k :: _ => .ok k
    | [] => .error .indexError
  | _ => .error (.attributeError "input_keys")

/-- One pair expansion of the `Report` reassembly, lines 183-186 and
189-190 of the source: the pair is destructured into target id and text,
and the text is keyed by the first input key of the chain object. -/
def report_pair_triple (env : Env) (c : Val) (nodeId : Val) : Except Err Val := do
  let t0 ← valIndex nodeId 0
  let k ← first_input_key env c
  let t1 ← valIndex nodeId 1
  pure (.vdict [("object", c), ("node_id", t0), ("input", .vdict [(k, t1)])])

/-- The triples contributed by one chain id in the `Report` reassembly,
source lines 177-195: a list-valued preset expands into one triple per
contained pair, a non-list (tuple) pair yields one triple, a missing preset
yields the default `start` input.  `isinstance(..., list)` distinguishes
the list case, so a single pair is a non-list sequence. -/
def report_triples (env : Env) (chains : Val) (preset : List (String × Val))
    (idx : Nat) (id : String) : Except Err (List Val) := do
  let c ← valIndex chains idx
  match lookupStr preset id with
  | some (.vlist ps) => mapME (report_pair_triple env c) ps
  | some pv => do
    let t ← report_pair_triple env c pv
    pure [t]
  | none => do
    let k ← first_input_key env c
    pure [Val.vdict [("object", c), ("input", .vdict [(k, .vstr "start")])]]

/-- The full chain list of the `Report` reassembly, flattening the triples
of every chain id in order. -/
def report_chain_list (env : Env) (chains : Val) (ids : List String)
    (preset : List (String × Val)) : Except Err (List Val) := do
  let ls ← mapME (fun p => report_triples env chains preset p.1 p.2) ids.enum
  pure ls.flatten

/-- Source lines 168-218, `instantiate_input_output`: the `Report` node
reassembles the chains with their preset questions and variables, the
`InputFileNode` downloads the selected file, and any other node renders its
text, treating a falsy `file_path` as empty output. -/
def instantiate_input_output (env : Env) (node_type : String) (cls : ClassObject)
    (params : Params) (id_dict : List (String × List String)) : Except Err Val := do
  if node_type == "Report" then do
    let preset ←
      match dictGet params PRESET_QUESTION with
      | some (.vdict kvs) => pure kvs
      | some _ => Except.error (.typeError "preset_question is not a mapping")
      | none => pure []
    let params := dictPop params PRESET_QUESTION
    let chains := dictGetD params "chains" (.vlist [])
    let chains_idlist := (lookupStr id_dict "chains").getD []
    let chain_list ← report_chain_list env chains chains_idlist preset
    let params := dictSet params "chains" (.vlist chain_list)
    let variableVal := dictGet params "variables"
    let variable_node_id :=
      match lookupStr id_dict "variables" with
      | some l => l
      | none => []
    let vars ← mapME (fun p => do
      let vv ←
        match variableVal with
        | some v => valIndex v p.1
        | none => Except.error (.typeError "NoneType is not subscriptable")
      pure (Val.vdict [("node_id", .vstr p.2), ("input", vv)])) variable_node_id.enum
    let params := dictSet params "variables" (.vlist vars)
    cls.call params
  else if node_type == "InputFileNode" then do
    let obj ← cls.call params
    let fp ← env.text_of obj
    if valTruthy fp then do
      let f0 ← valIndex fp 0
      let dl ← env.file_download f0
      let snd ← if valTruthy dl.2 then pure dl.2 else valIndex dl.1 1
      pure (.vlist [dl.1, snd])
    else pure (.vstr "")
  else do
    let params ←
      match dictGet params "file_path" with
      | some fp =>
        if !valTruthy fp then pure none
        else
          match fp with
          | .vlist l =>
            match l.get? 0 with
            | some f0 => pure (some (dictSet params "file_path" f0))
            | none => Except.error .indexError
          | _ => pure (some params)
      | none => pure (some params)
    match params with
    | none => pure (.vstr "")
    | some params => do
      let obj ← cls.call params
      env.text_of obj

/-- Whether the metadata parameter, when textual and truthy, is valid
JSON, so that its decoding step succeeds. -/
def metadataDecodes (params : Params) : Bool :=
  match dictGet params "metadata" with
  | some (.vstr s) => if s == "" then true else (jsonLoads s).isSome
  | _ => true

/-- A normalized mapping with no textual parameter under a kwargs/config
name: the JSON-decoding step leaves such a mapping unchanged. -/
def no_textual_kwargs (q : Params) : Bool :=
  q.all (fun kv =>
    match kv.2 with
    | .vstr _ => !isKwargsKey kv.1
    | _ => true)

/-- A concrete collaborator environment used by the witnesses: chain object
7 exposes the input key `text`, objects are retriever-capable, and loading
yields one document carrying the metadata entry `a = 1`. -/
def env0 : Env where
  file_access := none
  has_as_retriever := fun v => match v with | .vobj _ => true | _ => false
  as_retriever0 := fun v => .vfilterRet v none none "as_retriever"
  as_retriever2 := fun v st sk => .vfilterRet v (some st) (some sk) "as_retriever"
  input_keys := fun _ => ["text"]
  is_base_tool := fun _ => false
  tool_name := fun v => match v with | .vobj o => .ok (.vstr (toString o)) | _ => .error (.attributeError "name")
  judge_knowledge_permission := fun _ ids =>
    if ids.any (fun v => match v with | .vint n => n == 2 | _ => false) then
      [⟨2, "K2", "", "m2"⟩]
    else []
  get_list_by_ids := fun _ => []
  decide_embeddings := fun m => .vcallable "embedding" [m]
  fake_embedding := .vcallable "FakeEmbedding" []
  vecstore_init := fun _ => none
  split_documents := fun splitter docs => .ok (.vlist [splitter, docs])
  language_of := fun v => .ok v
  load_of := fun _ => .ok [⟨[("a", .vstr "1")]⟩, ⟨[]⟩]
  text_of := fun _ => .ok (.vstr "")
  file_download := fun v => .ok (v, .vstr "")

/-- A concrete class handle with no declared class methods whose constructor
and `from_documents` builder simply record the parameters they received. -/
def clsRecord : ClassObject where
  name := "Recorder"
  fields := []
  methods := []
  call := fun ps => .ok (.vdict ps)
  from_documents := fun ps => .ok (.vdict ps)

/-- A concrete class handle exposing the class method `from_llm`, which
tags the parameters it received. -/
def clsWithMethod : ClassObject where
  name := "WithMethod"
  fields := []
  methods := [("from_llm", fun ps => .ok (.vtuple [.vstr "from_llm", .vdict ps]))]
  call := fun ps => .ok (.vdict ps)
  from_documents := fun ps => .ok (.vdict ps)

/-- A concrete class handle whose constructor rejects any parameter other
than `a` with a `ValidationError`, while declaring `a` as its only field. -/
def clsValidating : ClassObject where
  name := "Validating"
  fields := ["a"]
  methods := []
  call := fun ps =>
    if ps.all (fun kv => kv.1 == "a") then .ok (.vdict ps)
    else .error (.validationError "extra fields not permitted")
  from_documents := fun ps => .ok (.vdict ps)

/-- A concrete class handle whose constructor always fails with the driver
text of a missing `cursor` attribute. -/
def clsCursorFail : ClassObject where
  name := "CursorFail"
  fields := []
  methods := []
  call := fun _ => .error (.exc "ConnectionObject object has no attribute 'cursor'")
  from_documents := fun ps => .ok (.vdict ps)

/-- Lookup after a cons step. -/
theorem dictGet_cons (a : String) (b : Val) (d : Params) (k : String) :
    dictGet ((a, b) :: d) k = if a == k then some b else dictGet d k := by
  cases h : a == k <;> simp [dictGet, List.find?, h]

/-- Lookup of the key just assigned. -/
theorem dictGet_dictSet_self (d : Params) (k : String) (v : Val) :
    dictGet (dictSet d k v) k = some v := by
  induction d with
  | nil => simp [dictSet, dictGet, List.find?]
  | cons kv tl ih =>
    obtain ⟨a, b⟩ := kv
    cases h : a == k
    · simpa [dictSet, h, dictGet_cons] using ih
    · simp [dictSet, h, dictGet_cons]

/-- Lookup of a different key after an assignment. -/
theorem dictGet_dictSet_ne (d : Params) (k1 k2 : String) (v : Val)
    (h12 : (k1 == k2) = false) :
    dictGet (dictSet d k1 v) k2 = dictGet d k2 := by
  induction d with
  | nil => simp [dictSet, dictGet_cons, h12, dictGet]
  | cons kv tl ih =>
    obtain ⟨a, b⟩ := kv
    cases h : a == k1
    · simp [dictSet, h, dictGet_cons, ih]
    · have ha : a = k1 := by simpa using h
      subst ha
      simp [dictSet, h, dictGet_cons, h12]

/-- Assigning the value a key already holds leaves the dict unchanged. -/
theorem dictSet_eq_self (d : Params) (k : String) (v : Val)
    (h : dictGet d k = some v) : dictSet d k v = d := by
  induction d with
  | nil => simp [dictGet] at h
  | cons kv tl ih =>
    obtain ⟨a, b⟩ := kv
    rw [dictGet_cons] at h
    cases hak : a == k
    · simp [hak] at h
      simp [dictSet, hak, ih h]
    · have ha : a = k := by simpa using hak
      simp [hak] at h
      subst ha h
      simp [dictSet]

/-- Unfolding a removal over a cons cell. -/
theorem dictPop_cons (a : String) (b : Val) (d : Params) (k : String) :
    dictPop ((a, b) :: d) k =
      if a == k then dictPop d k else (a, b) :: dictPop d k := by
  cases h : a == k <;> simp [dictPop, List.filter, bne, h]

/-- Lookup of a removed key. -/
theorem dictGet_dictPop_self (d : Params) (k : String) :
    dictGet (dictPop d k) k = none := by
  induction d with
  | nil => rfl
  | cons kv tl ih =>
    obtain ⟨a, b⟩ := kv
    rw [dictPop_cons]
    cases h : a == k
    · simp only [h, Bool.false_eq_true, if_false]
      rw [dictGet_cons]
      simp only [h, Bool.false_eq_true, if_false]
      exact ih
    · simp only [h, if_true]
      exact ih

/-- Lookup of a different key after a removal. -/
theorem dictGet_dictPop_ne (d : Params) (k1 k2 : String)
    (h12 : (k1 == k2) = false) :
    dictGet (dictPop d k1) k2 = dictGet d k2 := by
  induction d with
  | nil => rfl
  | cons kv tl ih =>
    obtain ⟨a, b⟩ := kv
    rw [dictPop_cons]
    cases h : a == k1
    · rw [if_neg (by simp [h]), dictGet_cons, dictGet_cons]
      cases h2 : a == k2
      · simpa [h2] using ih
      · simp [h2]
    · have ha : a = k1 := by simpa using h
      subst ha
      rw [if_pos (by simp), dictGet_cons, if_neg (by simp [h12] : ¬ (a == k2) = true)]
      exact ih

/-- Removing an absent key leaves the dict unchanged. -/
theorem dictPop_eq_self (d : Params) (k : String)
    (h : dictGet d k = none) : dictPop d k = d := by
  induction d with
  | nil => rfl
  | cons kv tl ih =>
    obtain ⟨a, b⟩ := kv
    rw [dictGet_cons] at h
    cases hak : a == k
    · rw [if_neg (by simp [hak])] at h
      rw [dictPop_cons, if_neg (by simp [hak]), ih h]
    · rw [if_pos (by simp [hak])] at h
      exact absurd h (by simp)

/-- The `set` builtin always produces a set value when it succeeds. -/
theorem pySetOf_shape (v s : Val) (h : pySetOf v = .ok s) :
    ∃ vs, s = .vset vs := by
  cases v
  case vset vs =>
    injection h with h2
    exact ⟨vs, h2.symm⟩
  case vnull => simp [pySetOf, valIter, bind, Except.bind] at h
  case vbool b => simp [pySetOf, valIter, bind, Except.bind] at h
  case vint n => simp [pySetOf, valIter, bind, Except.bind] at h
  case vobj o => simp [pySetOf, valIter, bind, Except.bind] at h
  case vcallable t d => simp [pySetOf, valIter, bind, Except.bind] at h
  case vexec a t hp => simp [pySetOf, valIter, bind, Except.bind] at h
  case vfilterRet a b c d => simp [pySetOf, valIter, bind, Except.bind] at h
  all_goals
    simp only [pySetOf, valIter, bind, Except.bind] at h
    split at h
    · injection h with h2
      exact ⟨_, h2.symm⟩
    · cases h

/-- After a successful set-conversion step the converted key is absent or
set-valued, and every other key is untouched. -/
theorem setStep_shape (key : String) (p q : Params) (h : setStep key p = .ok q) :
    (dictGet q key = none ∨ ∃ vs, dictGet q key = some (Val.vset vs)) ∧
    (∀ k2, (key == k2) = false → dictGet q k2 = dictGet p k2) := by
  unfold setStep at h
  split at h
  · rename_i v hA
    cases hS : pySetOf v <;> rw [hS] at h <;> simp [Except.map] at h
    subst h
    obtain ⟨vs, hvs⟩ := pySetOf_shape _ _ hS
    subst hvs
    refine ⟨Or.inr ⟨vs, dictGet_dictSet_self _ _ _⟩, fun k2 hk2 => ?_⟩
    exact dictGet_dictSet_ne _ _ _ _ hk2
  · rename_i hA
    cases h
    exact ⟨Or.inl hA, fun k2 _ => rfl⟩

/-- A set-conversion step is the identity on a mapping whose converted key
is already absent or set-valued. -/
theorem setStep_fix (key : String) (p : Params)
    (h : dictGet p key = none ∨ ∃ vs, dictGet p key = some (Val.vset vs)) :
    setStep key p = .ok p := by
  unfold setStep
  rcases h with h | ⟨vs, h⟩
  · rw [h]
  · rw [h]
    simp [pySetOf, Except.map, dictSet_eq_self _ _ _ h]

/-- The set-conversion pass leaves `input_node` absent and the two special
token parameters set-valued, and touches no other key. -/
theorem convert_params_to_sets_shape (p p1 : Params)
    (h : convert_params_to_sets p = .ok p1) :
    dictGet p1 "input_node" = none ∧
    (dictGet p1 "allowed_special" = none ∨
      ∃ vs, dictGet p1 "allowed_special" = some (Val.vset vs)) ∧
    (dictGet p1 "disallowed_special" = none ∨
      ∃ vs, dictGet p1 "disallowed_special" = some (Val.vset vs)) := by
  unfold convert_params_to_sets at h
  cases h1 : setStep "allowed_special" p <;> rw [h1] at h
  case error e => simp [bind, Except.bind] at h
  case ok q1 =>
    simp only [bind, Except.bind] at h
    split at h
    case h_1 e h2 => cases h
    case h_2 q2 h2 =>
      simp only [pure, Except.pure, Except.ok.injEq] at h
      subst h
      obtain ⟨hA1, hOther1⟩ := setStep_shape _ _ _ h1
      obtain ⟨hD2, hOther2⟩ := setStep_shape _ _ _ h2
      refine ⟨dictGet_dictPop_self _ _, ?_, ?_⟩
      · rw [dictGet_dictPop_ne _ _ _ (by decide)]
        rw [hOther2 _ (by decide)]
        exact hA1
      · rw [dictGet_dictPop_ne _ _ _ (by decide)]
        exact hD2

/-- The set-conversion pass is the identity on its own output shape. -/
theorem convert_params_to_sets_fix (q : Params)
    (hin : dictGet q "input_node" = none)
    (hA : dictGet q "allowed_special" = none ∨
      ∃ vs, dictGet q "allowed_special" = some (Val.vset vs))
    (hD : dictGet q "disallowed_special" = none ∨
      ∃ vs, dictGet q "disallowed_special" = some (Val.vset vs)) :
    convert_params_to_sets q = .ok q := by
  unfold convert_params_to_sets
  rw [setStep_fix _ _ hA]
  simp only [bind, Except.bind, pure, Except.pure]
  rw [setStep_fix _ _ hD]
  simp only [dictPop_eq_self _ _ hin]

/-- An entry whose name is not a kwargs/config name passes through the
decoding step unchanged. -/
theorem kwargsEntry_of_not (a : String) (b : Val) (h : isKwargsKey a = false) :
    kwargsEntry (a, b) = .ok (a, b) := by
  cases b <;> simp [kwargsEntry, h]

/-- The decoding step preserves the key of every entry. -/
theorem kwargsEntry_fst (a : String) (b : Val) (kv2 : String × Val)
    (h : kwargsEntry (a, b) = .ok kv2) : kv2.1 = a := by
  cases b <;> simp [kwargsEntry] at h
  case vstr s =>
    cases hk : isKwargsKey a <;> rw [hk] at h <;> simp at h
    · exact congrArg Prod.fst h.symm
    · cases hj : jsonLoads s <;> rw [hj] at h <;> simp at h
      exact congrArg Prod.fst h.symm
  all_goals exact congrArg Prod.fst h.symm

/-- The kwargs decoding pass does not change the binding of any
non-kwargs/config key. -/
theorem convert_kwargs_get (p q : Params) (k : String)
    (hk : isKwargsKey k = false) (h : convert_kwargs p = .ok q) :
    dictGet q k = dictGet p k := by
  induction p generalizing q with
  | nil => cases h; rfl
  | cons kv tl ih =>
    obtain ⟨a, b⟩ := kv
    unfold convert_kwargs at h ih
    simp only [mapME, bind, Except.bind] at h
    cases hf : kwargsEntry (a, b) <;> rw [hf] at h
    case error e => cases h
    case ok kv2 =>
      cases hrest : mapME kwargsEntry tl <;> rw [hrest] at h
      case error e => cases h
      case ok rest =>
        simp only [pure, Except.pure, Except.ok.injEq] at h
        subst h
        obtain ⟨a2, b2⟩ := kv2
        have ha2 : a = a2 := (kwargsEntry_fst _ _ _ hf).symm
        subst ha2
        rw [dictGet_cons, dictGet_cons]
        cases hak : a == k
        · simp only [hak, Bool.false_eq_true, if_false]
          exact ih _ hrest
        · have ha : a = k := by simpa using hak
          subst ha
          rw [kwargsEntry_of_not a b hk] at hf
          injection hf with hkv
          have hb : b = b2 := congrArg Prod.snd hkv
          subst hb
          rfl

/-- The kwargs decoding pass is the identity on a mapping with no textual
kwargs/config entry. -/
theorem convert_kwargs_fix (q : Params) (h : no_textual_kwargs q = true) :
    convert_kwargs q = .ok q := by
  induction q with
  | nil => rfl
  | cons kv tl ih =>
    obtain ⟨a, b⟩ := kv
    simp only [no_textual_kwargs, List.all_cons, Bool.and_eq_true] at h
    obtain ⟨h1, h2⟩ := h
    have htl : convert_kwargs tl = .ok tl := ih (by simpa [no_textual_kwargs] using h2)
    unfold convert_kwargs at htl ⊢
    cases b
    case vstr s =>
      have hk : isKwargsKey a = false := by simpa using h1
      simp [mapME, kwargsEntry, hk, htl, bind, Except.bind, pure, Except.pure]
    all_goals simp [mapME, kwargsEntry, htl, bind, Except.bind, pure, Except.pure]

/-- C10, counterexample: normalization is not idempotent.  The textual
parameter `model_kwargs = "\"1\""` decodes to the text `1` on the first
pass; a second pass decodes that text again, producing the integer 1, so
applying the normalization steps twice differs from applying them once. -/
theorem normalize_not_idempotent :
    normalize [("model_kwargs", Val.vstr "\"1\"")] =
      .ok [("model_kwargs", Val.vstr "1")] ∧
    normalize [("model_kwargs", Val.vstr "1")] =
      .ok [("model_kwargs", Val.vint 1)] ∧
    [("model_kwargs", Val.vstr "1")] ≠ ([("model_kwargs", Val.vint 1)] : Params) :=
  ⟨rfl, rfl, by simp⟩

/-- C10, amended: normalization (set conversion, `input_node` removal and
kwargs/config JSON decoding) is idempotent on every params mapping whose
normalized form carries no textual parameter under a kwargs/config name; a
kwargs/config parameter that decodes to text is decoded again by a second
pass, which changes the result or fails. -/
theorem normalize_idempotent_amended (p q : Params) (h : normalize p = .ok q)
    (hq : no_textual_kwargs q = true) : normalize q = .ok q := by
  unfold normalize at h ⊢
  cases h1 : convert_params_to_sets p <;> rw [h1] at h
  case error e => simp [bind, Except.bind] at h
  case ok p1 =>
    simp only [bind, Except.bind] at h
    obtain ⟨hin, hA, hD⟩ := convert_params_to_sets_shape _ _ h1
    have hget : ∀ k2, isKwargsKey k2 = false → dictGet q k2 = dictGet p1 k2 :=
      fun k2 hk2 => convert_kwargs_get _ _ _ hk2 h
    have hin2 : dictGet q "input_node" = none := by
      rw [hget _ (by decide)]
      exact hin
    have hA2 : dictGet q "allowed_special" = none ∨
        ∃ vs, dictGet q "allowed_special" = some (Val.vset vs) := by
      rw [hget _ (by decide)]
      exact hA
    have hD2 : dictGet q "disallowed_special" = none ∨
        ∃ vs, dictGet q "disallowed_special" = some (Val.vset vs) := by
      rw [hget _ (by decide)]
      exact hD
    rw [convert_params_to_sets_fix _ hin2 hA2 hD2]
    simp only [bind, Except.bind]
    exact convert_kwargs_fix _ hq

/-- C10, witness for the amended theorem at a concrete mapping exercising
all three normalization steps. -/
theorem normalize_idempotent_amended_witness :
    normalize [("allowed_special", Val.vlist [.vstr "a", .vstr "a"]),
        ("input_node", Val.vstr "n"), ("model_kwargs", Val.vstr "[1]")] =
      .ok [("allowed_special", Val.vset [.vstr "a"]),
        ("model_kwargs", Val.vlist [.vint 1])] ∧
    no_textual_kwargs [("allowed_special", Val.vset [.vstr "a"]),
        ("model_kwargs", Val.vlist [.vint 1])] = true ∧
    normalize [("allowed_special", Val.vset [.vstr "a"]),
        ("model_kwargs", Val.vlist [.vint 1])] =
      .ok [("allowed_special", Val.vset [.vstr "a"]),
        ("model_kwargs", Val.vlist [.vint 1])] :=
  ⟨rfl, rfl,
    normalize_idempotent_amended
      [("allowed_special", Val.vlist [.vstr "a", .vstr "a"]),
        ("input_node", Val.vstr "n"), ("model_kwargs", Val.vstr "[1]")]
      [("allowed_special", Val.vset [.vstr "a"]),
        ("model_kwargs", Val.vlist [.vint 1])] rfl rfl⟩

/-- C1, counterexample: when an agent node type has a registered factory
method but the resolved class lacks it, the build does not fail with a
missing-method error; it falls through to default executor construction and
succeeds. -/
theorem agent_missing_method_no_error :
    lookupMethod clsRecord "from_llm" = none ∧
    instantiate_agent [("AgX", "from_llm")] env0 "AgX" clsRecord
        [("llm_chain", .vobj 1)] =
      .ok (.vexec (.vdict [("allowed_tools", .vlist []), ("llm_chain", .vobj 1)])
        (.vlist []) true) :=
  ⟨rfl, rfl⟩

/-- C1, amended: for a (category,type) pair registered in the
`from_method_nodes` table of a creator, the chains strategy invokes the registered method on
the prepared parameters when the class has it, fails with the
missing-method `ValueError` when the class lacks it, and falls back to
default construction for unregistered pairs; the agent strategy invokes
the method and wraps the result into an executor when the class has it,
but falls back to default executor construction (`load_agent_executor`)
both when the class lacks the method and when no method is registered. -/
theorem factory_method_dispatch_amended :
    (∀ (fmn : List (String × String)) (env : Env) (nt : String) (cls : ClassObject)
        (params : Params) (id_dict : List (String × List String)) (P : Params)
        (m : String) (f : Params → Except Err Val),
      chains_prepare env nt params id_dict = .ok P →
      lookupStr fmn nt = some m →
      lookupMethod cls m = some f →
      instantiate_chains fmn env nt cls params id_dict = f P) ∧
    (∀ (fmn : List (String × String)) (env : Env) (nt : String) (cls : ClassObject)
        (params : Params) (id_dict : List (String × List String)) (P : Params)
        (m : String),
      chains_prepare env nt params id_dict = .ok P →
      lookupStr fmn nt = some m →
      lookupMethod cls m = none →
      instantiate_chains fmn env nt cls params id_dict =
        .error (.valueError ("Method " ++ m ++ " not found in " ++ cls.name))) ∧
    (∀ (fmn : List (String × String)) (env : Env) (nt : String) (cls : ClassObject)
        (params : Params) (id_dict : List (String × List String)) (P : Params),
      chains_prepare env nt params id_dict = .ok P →
      lookupStr fmn nt = none →
      instantiate_chains fmn env nt cls params id_dict = cls.call P) ∧
    (∀ (fmn : List (String × String)) (env : Env) (nt : String) (cls : ClassObject)
        (params : Params) (m : String) (f : Params → Except Err Val) (a : Val),
      lookupStr fmn nt = some m →
      lookupMethod cls m = some f →
      f params = .ok a →
      instantiate_agent fmn env nt cls params =
        .ok (.vexec a (dictGetD params "tools" (.vlist [])) true)) ∧
    (∀ (fmn : List (String × String)) (env : Env) (nt : String) (cls : ClassObject)
        (params : Params) (m : String),
      lookupStr fmn nt = some m →
      lookupMethod cls m = none →
      instantiate_agent fmn env nt cls params = load_agent_executor env cls params) ∧
    (∀ (fmn : List (String × String)) (env : Env) (nt : String) (cls : ClassObject)
        (params : Params),
      lookupStr fmn nt = none →
      instantiate_agent fmn env nt cls params = load_agent_executor env cls params) := by
  refine ⟨?_, ?_, ?_, ?_, ?_, ?_⟩
  · intro fmn env nt cls params id_dict P m f hP hm hf
    unfold instantiate_chains
    rw [hP]
    simp only [bind, Except.bind, chains_dispatch, hm, hf]
  · intro fmn env nt cls params id_dict P m hP hm hf
    unfold instantiate_chains
    rw [hP]
    simp only [bind, Except.bind, chains_dispatch, hm, hf]
  · intro fmn env nt cls params id_dict P hP hm
    unfold instantiate_chains
    rw [hP]
    simp only [bind, Except.bind, chains_dispatch, hm]
  · intro fmn env nt cls params m f a hm hf ha
    unfold instantiate_agent
    rw [hm]
    dsimp only
    rw [hf]
    dsimp only
    rw [ha]
    simp only [bind, Except.bind, pure, Except.pure]
  · intro fmn env nt cls params m hm hf
    unfold instantiate_agent
    rw [hm]
    dsimp only
    rw [hf]
  · intro fmn env nt cls params hm
    unfold instantiate_agent
    rw [hm]

/-- C1, witness: the four dispatch modes at concrete inputs: chains with a
registered present method, chains with a registered missing method, chains
unregistered, and an agent with a registered present method. -/
theorem factory_method_dispatch_amended_witness :
    (chains_prepare env0 "X" [("a", Val.vint 1)] [] = .ok [("a", Val.vint 1)]) ∧
    (instantiate_chains [("X", "from_llm")] env0 "X" clsWithMethod
        [("a", Val.vint 1)] [] =
      .ok (.vtuple [.vstr "from_llm", .vdict [("a", Val.vint 1)]])) ∧
    (instantiate_chains [("X", "from_llm")] env0 "X" clsRecord
        [("a", Val.vint 1)] [] =
      .error (.valueError "Method from_llm not found in Recorder")) ∧
    (instantiate_chains [] env0 "X" clsRecord [("a", Val.vint 1)] [] =
      .ok (.vdict [("a", Val.vint 1)])) ∧
    (instantiate_agent [("AgX", "from_llm")] env0 "AgX" clsWithMethod
        [("tools", Val.vlist [.vobj 5]), ("llm_chain", .vobj 1)] =
      .ok (.vexec
        (.vtuple [.vstr "from_llm",
          .vdict [("tools", Val.vlist [.vobj 5]), ("llm_chain", .vobj 1)]])
        (.vlist [.vobj 5]) true)) :=
  ⟨rfl,
    factory_method_dispatch_amended.1 [("X", "from_llm")] env0 "X" clsWithMethod
      [("a", Val.vint 1)] [] [("a", Val.vint 1)] "from_llm" _ rfl rfl rfl,
    factory_method_dispatch_amended.2.1 [("X", "from_llm")] env0 "X" clsRecord
      [("a", Val.vint 1)] [] [("a", Val.vint 1)] "from_llm" rfl rfl rfl,
    factory_method_dispatch_amended.2.2.1 [] env0 "X" clsRecord
      [("a", Val.vint 1)] [] [("a", Val.vint 1)] rfl rfl,
    factory_method_dispatch_amended.2.2.2.1 [("AgX", "from_llm")] env0 "AgX"
      clsWithMethod [("tools", Val.vlist [.vobj 5]), ("llm_chain", .vobj 1)]
      "from_llm" _ _ rfl rfl rfl⟩

/-- A successful last-occurrence lookup yields an index within bounds. -/
theorem lastIdx_some_lt (ids : List String) (s : String) (i : Nat)
    (h : lastIdx ids s = some i) : i < ids.length := by
  induction ids generalizing i with
  | nil => cases h
  | cons a tl ih =>
    unfold lastIdx at h
    cases hlt : lastIdx tl s <;> rw [hlt] at h
    · cases has : a == s <;> simp [has] at h
      subst h
      simp
    · rename_i j
      cases h
      simpa using Nat.succ_lt_succ (ih _ hlt)

/-- A failed last-occurrence lookup means the element is absent. -/
theorem lastIdx_none_not_contains (ids : List String) (s : String)
    (h : lastIdx ids s = none) : ids.contains s = false := by
  induction ids with
  | nil => rfl
  | cons a tl ih =>
    unfold lastIdx at h
    cases hlt : lastIdx tl s <;> rw [hlt] at h
    · cases has : a == s <;> simp [has] at h
      have has2 : (s == a) = false := by
        cases heq : s == a
        · rfl
        · have hsa : s = a := eq_of_beq heq
          subst hsa
          simp at has
      simp only [List.contains_cons, Bool.or_eq_false_iff]
      exact ⟨has2, ih hlt⟩
    · cases h

/-- A contained element has an in-bounds last-occurrence index. -/
theorem lastIdx_of_contains (ids : List String) (s : String)
    (h : ids.contains s = true) :
    ∃ i, lastIdx ids s = some i ∧ i < ids.length := by
  cases hl : lastIdx ids s
  · rw [lastIdx_none_not_contains _ _ hl] at h
    cases h
  · rename_i i
    exact ⟨i, rfl, lastIdx_some_lt _ _ _ hl⟩

/-- The comprehension step selects the sub-chain at the last-occurrence
index of the order id in the sourceIds list. -/
theorem seq_pick_vstr (cs : List Val) (ids : List String) (oid : String)
    (hm : ids.contains oid = true) (hlen : ids.length = cs.length) :
    seq_pick (some (.vlist cs)) ids (.vstr oid) =
      .ok (cs.getD ((lastIdx ids oid).getD 0) .vnull) := by
  obtain ⟨i, hi, hil⟩ := lastIdx_of_contains _ _ hm
  rw [hlen] at hil
  have hq : ∃ c, cs.get? i = some c := by
    cases hq2 : cs.get? i
    · rw [List.get?_eq_none] at hq2
      omega
    · exact ⟨_, rfl⟩
  obtain ⟨c, hq⟩ := hq
  unfold seq_pick valIndex
  simp only [hi, hq, bind, Except.bind, pure, Except.pure, Option.getD_some,
    List.getD_eq_getD_get?]

/-- The reorder comprehension maps each order id to the sub-chain at its
sourceIds index. -/
theorem mapME_seq_pick (cs : List Val) (ids : List String)
    (orderNames : List String)
    (hall : orderNames.all (fun oid => ids.contains oid) = true)
    (hlen : ids.length = cs.length) :
    mapME (seq_pick (some (.vlist cs)) ids) (orderNames.map Val.vstr) =
      .ok (orderNames.map (fun oid => cs.getD ((lastIdx ids oid).getD 0) .vnull)) := by
  induction orderNames with
  | nil => rfl
  | cons o tl ih =>
    simp only [List.all_cons, Bool.and_eq_true] at hall
    obtain ⟨ho, htl⟩ := hall
    simp only [List.map_cons, mapME, bind, Except.bind]
    rw [seq_pick_vstr _ _ _ ho hlen, ih htl]
    simp [pure, Except.pure]

/-- C2: for the `SequentialChain` node type the chains parameter is
reordered by the externally supplied id-ordered `chain_order` list through
the sourceIds mapping: the prepared parameters bind `chains` to the list
that picks, for each order id in order, the sub-chain at the index of that id in
the sourceIds list, and construction is invoked on those prepared
parameters. -/
theorem sequential_chain_reorder
    (env : Env) (params : Params) (id_dict : List (String × List String))
    (cs : List Val) (ids : List String) (orderNames : List String) (s : String)
    (h1 : dictGet params "retriever" = none)
    (h2 : dictGet params "chains" = some (.vlist cs))
    (h3 : dictGet params "chain_order" = some (.vstr s))
    (h4 : jsonLoads s = some (.vlist (orderNames.map Val.vstr)))
    (h5 : lookupStr id_dict "chains" = some ids)
    (h6 : orderNames.all (fun oid => ids.contains oid) = true)
    (h7 : ids.length = cs.length)
    (h8 : dictGet params "headers" = none) :
    chains_prepare env "SequentialChain" params id_dict =
      .ok (dictSet (dictPop (dictPop params "input_node") "chain_order") "chains"
        (.vlist (orderNames.map
          (fun oid => cs.getD ((lastIdx ids oid).getD 0) .vnull)))) ∧
    (∀ (fmn : List (String × String)) (cls : ClassObject),
      lookupStr fmn "SequentialChain" = none →
      instantiate_chains fmn env "SequentialChain" cls params id_dict =
        cls.call (dictSet (dictPop (dictPop params "input_node") "chain_order")
          "chains" (.vlist (orderNames.map
            (fun oid => cs.getD ((lastIdx ids oid).getD 0) .vnull))))) := by
  have hco : dictGet (dictPop params "input_node") "chain_order" = some (.vstr s) := by
    rw [dictGet_dictPop_ne _ _ _ (by decide), h3]
  have hch : dictGet (dictPop (dictPop params "input_node") "chain_order") "chains" =
      some (.vlist cs) := by
    rw [dictGet_dictPop_ne _ _ _ (by decide), dictGet_dictPop_ne _ _ _ (by decide), h2]
  have hhd : dictGet (dictSet (dictPop (dictPop params "input_node") "chain_order")
      "chains" (.vlist (orderNames.map
        (fun oid => cs.getD ((lastIdx ids oid).getD 0) .vnull)))) "headers" = none := by
    rw [dictGet_dictSet_ne _ _ _ _ (by decide), dictGet_dictPop_ne _ _ _ (by decide),
      dictGet_dictPop_ne _ _ _ (by decide), h8]
  have hprep : chains_prepare env "SequentialChain" params id_dict =
      .ok (dictSet (dictPop (dictPop params "input_node") "chain_order") "chains"
        (.vlist (orderNames.map
          (fun oid => cs.getD ((lastIdx ids oid).getD 0) .vnull)))) := by
    have e1 : ("SequentialChain" == "ConversationalRetrievalChain") = false := by decide
    have e2 : ("SequentialChain" == "MultiPromptChain") = false := by decide
    have e3 : ("SequentialChain" == "MultiRuleChain") = false := by decide
    unfold chains_prepare
    simp only [h1, bind, Except.bind, pure, Except.pure, beq_self_eq_true, if_true,
      hco, h4, hch, h5, valIter]
    rw [mapME_seq_pick _ _ _ h6 h7]
    simp only [bind, Except.bind, pure, Except.pure, hhd, e1, e2, e3,
      Bool.or_self, Bool.false_eq_true, if_false]
  refine ⟨hprep, fun fmn cls hfmn => ?_⟩
  unfold instantiate_chains
  rw [hprep]
  simp only [bind, Except.bind, chains_dispatch, hfmn]

/-- C2, witness: sub-chains [A,B,C] (objects 1,2,3) with source ids
[1,2,3] and explicit order [3,1,2] yield the chains list [C,A,B]. -/
theorem sequential_chain_reorder_witness :
    (dictGet [("chains", Val.vlist [.vobj 1, .vobj 2, .vobj 3]),
        ("chain_order", Val.vstr "[\"3\",\"1\",\"2\"]")] "chains" =
      some (.vlist [.vobj 1, .vobj 2, .vobj 3])) ∧
    (jsonLoads "[\"3\",\"1\",\"2\"]" =
      some (.vlist (["3", "1", "2"].map Val.vstr))) ∧
    (chains_prepare env0 "SequentialChain"
        [("chains", Val.vlist [.vobj 1, .vobj 2, .vobj 3]),
          ("chain_order", Val.vstr "[\"3\",\"1\",\"2\"]")]
        [("chains", ["1", "2", "3"])] =
      .ok [("chains", Val.vlist [.vobj 3, .vobj 1, .vobj 2])]) ∧
    (instantiate_chains [] env0 "SequentialChain" clsRecord
        [("chains", Val.vlist [.vobj 1, .vobj 2, .vobj 3]),
          ("chain_order", Val.vstr "[\"3\",\"1\",\"2\"]")]
        [("chains", ["1", "2", "3"])] =
      .ok (.vdict [("chains", Val.vlist [.vobj 3, .vobj 1, .vobj 2])])) :=
  ⟨rfl, rfl,
    (sequential_chain_reorder env0
      [("chains", Val.vlist [.vobj 1, .vobj 2, .vobj 3]),
        ("chain_order", Val.vstr "[\"3\",\"1\",\"2\"]")]
      [("chains", ["1", "2", "3"])]
      [.vobj 1, .vobj 2, .vobj 3] ["1", "2", "3"] ["3", "1", "2"]
      "[\"3\",\"1\",\"2\"]" rfl rfl rfl rfl rfl rfl rfl rfl).1,
    (sequential_chain_reorder env0
      [("chains", Val.vlist [.vobj 1, .vobj 2, .vobj 3]),
        ("chain_order", Val.vstr "[\"3\",\"1\",\"2\"]")]
      [("chains", ["1", "2", "3"])]
      [.vobj 1, .vobj 2, .vobj 3] ["1", "2", "3"] ["3", "1", "2"]
      "[\"3\",\"1\",\"2\"]" rfl rfl rfl rfl rfl rfl rfl rfl).2 [] clsRecord rfl⟩

/-- C7, counterexample: a construction failure in the embedding strategy
does not propagate: a `ValidationError` is caught and construction is
retried with the parameters restricted to the declared fields, succeeding
here, so not every non-memory strategy failure reaches the caller. -/
theorem embedding_validation_recovery :
    clsValidating.call [("a", Val.vstr "1"), ("b", Val.vstr "2")] =
      .error (.validationError "extra fields not permitted") ∧
    instantiate_embedding clsValidating [("a", Val.vstr "1"), ("b", Val.vstr "2")] =
      .ok (.vdict [("a", Val.vstr "1")]) :=
  ⟨rfl, rfl⟩

/-- C7, amended: strategy-level construction failures propagate to the
caller unrecovered and without retry, with exactly two exceptions: the
memory strategy re-labels a known connection/cursor construction failure
into an actionable connection-configuration `AttributeError` (other memory
failures propagate unchanged), and the embedding strategy catches a
`ValidationError` and retries construction once with the parameters
restricted to the declared fields of the class (other embedding failures
propagate unchanged). -/
theorem error_propagation_amended :
    (∀ (env : Env) (nt : String) (cls : ClassObject) (params : Params) (e : Err),
      cls.call (memory_params env nt params) = .error e →
      isConnectionErrText (errStr e) = true →
      instantiate_memory env nt cls params =
        .error (.attributeError
          ("Failed to build connection to database. Please check your connection string and try again. Error: "
            ++ errStr e))) ∧
    (∀ (env : Env) (nt : String) (cls : ClassObject) (params : Params) (e : Err),
      cls.call (memory_params env nt params) = .error e →
      isConnectionErrText (errStr e) = false →
      instantiate_memory env nt cls params = .error e) ∧
    (∀ (cls : ClassObject) (params : Params) (m : String),
      cls.call (embedding_params cls params) = .error (.validationError m) →
      instantiate_embedding cls params =
        cls.call ((embedding_params cls params).filter
          (fun kv => cls.fields.contains kv.1))) ∧
    (∀ (cls : ClassObject) (params : Params) (e : Err),
      cls.call (embedding_params cls params) = .error e →
      (∀ m, e ≠ .validationError m) →
      instantiate_embedding cls params = .error e) := by
  refine ⟨?_, ?_, ?_, ?_⟩
  · intro env nt cls params e hc hconn
    unfold instantiate_memory
    rw [hc]
    simp [hconn]
  · intro env nt cls params e hc hconn
    unfold instantiate_memory
    rw [hc]
    simp [hconn]
  · intro cls params m hc
    unfold instantiate_embedding
    dsimp only
    rw [hc]
  · intro cls params e hc hnv
    unfold instantiate_embedding
    dsimp only
    rw [hc]
    cases e <;> simp
    exact absurd rfl (hnv _)

/-- C7, witness: the connection re-labeling at a concrete memory class
whose constructor fails with the driver text, and the validation retry at a
concrete embedding class. -/
theorem error_propagation_amended_witness :
    (clsCursorFail.call (memory_params env0 "X" []) =
      .error (.exc "ConnectionObject object has no attribute 'cursor'")) ∧
    (isConnectionErrText
      (errStr (.exc "ConnectionObject object has no attribute 'cursor'")) = true) ∧
    (instantiate_memory env0 "X" clsCursorFail [] =
      .error (.attributeError
        ("Failed to build connection to database. Please check your connection string and try again. Error: "
          ++ errStr (.exc "ConnectionObject object has no attribute 'cursor'")))) ∧
    (instantiate_embedding clsValidating [("a", Val.vstr "1"), ("b", Val.vstr "2")] =
      clsValidating.call
        ((embedding_params clsValidating [("a", Val.vstr "1"), ("b", Val.vstr "2")]).filter
          (fun kv => clsValidating.fields.contains kv.1))) :=
  ⟨rfl, by decide,
    error_propagation_amended.1 env0 "X" clsCursorFail []
      (.exc "ConnectionObject object has no attribute 'cursor'") rfl (by decide),
    error_propagation_amended.2.2.1 clsValidating
      [("a", Val.vstr "1"), ("b", Val.vstr "2")] "extra fields not permitted" rfl⟩

/-- C4, counterexample: a present-but-empty `documents` input does not fail
with the missing-input error; the splitter returns the empty list. -/
theorem textsplitter_empty_documents_no_error :
    instantiate_textsplitter env0 clsRecord [("documents", Val.vlist [])] =
      .ok (.vlist []) :=
  rfl

/-- C4, amended: the text-splitter strategy fails with MissingInputError
only when the `documents` input is absent; a present but empty (falsy)
`documents` input returns the empty document list without error. -/
theorem textsplitter_missing_documents_amended :
    (∀ (env : Env) (cls : ClassObject) (params : Params),
      dictGet params "documents" = none →
      instantiate_textsplitter env cls params =
        .error (.valueError
          "The source you provided did not load correctly or was empty.Try changing the chunk_size of the Text Splitter.")) ∧
    (∀ (env : Env) (cls : ClassObject) (params : Params) (d : Val),
      dictGet params "documents" = some d →
      valTruthy d = false →
      instantiate_textsplitter env cls params = .ok (.vlist [])) := by
  constructor
  · intro env cls params h
    unfold instantiate_textsplitter
    dsimp only
    rw [h]
    rfl
  · intro env cls params d h ht
    unfold instantiate_textsplitter
    dsimp only
    rw [h]
    simp [ht, bind, Except.bind, pure, Except.pure]

/-- C4, witness: an absent `documents` input fails with the missing-input
error, an empty one yields the empty list. -/
theorem textsplitter_missing_documents_amended_witness :
    (dictGet ([("chunk_size", Val.vint 10)] : Params) "documents" = none) ∧
    (instantiate_textsplitter env0 clsRecord [("chunk_size", Val.vint 10)] =
      .error (.valueError
        "The source you provided did not load correctly or was empty.Try changing the chunk_size of the Text Splitter.")) ∧
    (instantiate_textsplitter env0 clsRecord [("documents", Val.vlist [])] =
      .ok (.vlist [])) :=
  ⟨rfl,
    textsplitter_missing_documents_amended.1 env0 clsRecord
      [("chunk_size", Val.vint 10)] rfl,
    textsplitter_missing_documents_amended.2 env0 clsRecord
      [("documents", Val.vlist [])] (Val.vlist []) rfl rfl⟩

/-- A present key is contained. -/
theorem dictContains_of_get (d : Params) (k : String) (v : Val)
    (h : dictGet d k = some v) : dictContains d k = true := by
  induction d with
  | nil => cases h
  | cons kv tl ih =>
    obtain ⟨a, b⟩ := kv
    rw [dictGet_cons] at h
    cases hak : a == k
    · rw [if_neg (by simp [hak])] at h
      have htl := ih h
      simp only [dictContains, List.any_cons, hak, Bool.false_or]
      simpa [dictContains] using htl
    · simp [dictContains, List.any_cons, hak]

/-- C8: evaluation of the document-loader metadata merge at a document that
already carries the metadata entry `a = 1` while the supplied mapping
carries `a = 2`.  The merge uses `dict.update`, which overwrites the
pre-existing value: the loaded document ends with `a = 2`, although the
comment above the merge in the source states that existing metadata is not
overwritten.  The second loaded document, which has no metadata, receives
the supplied mapping, as the claim also states. -/
theorem documentloader_metadata_overwrite :
    instantiate_documentloader env0 clsRecord
        [("metadata", Val.vdict [("a", Val.vstr "2")])] =
      .ok [⟨[("a", Val.vstr "2")]⟩, ⟨[("a", Val.vstr "2")]⟩] :=
  rfl

/-- C9, counterexample: an empty-list `file_path` parameter is an empty
file path by the truthiness test the loader itself uses, yet the strategy
raises `IndexError` while destructuring the `[path, name]` pair instead of
returning the empty document list. -/
theorem documentloader_empty_list_path_error :
    instantiate_documentloader env0 clsRecord [("file_path", Val.vlist [])] =
      .error .indexError :=
  rfl

/-- C9, amended: the document-loader strategy returns the empty document
list and raises no error for an empty-string `file_path` (provided any
textual metadata parameter decodes, since metadata decoding precedes the
empty-path test), and likewise for a `[path, name]` pair whose path is the
empty string; an empty-list `file_path` instead raises `IndexError` during
pair destructuring. -/
theorem documentloader_empty_path_amended :
    (∀ (env : Env) (cls : ClassObject) (params : Params),
      dictGet params "file_filter" = none →
      dictGet params "file_path" = some (.vstr "") →
      metadataDecodes params = true →
      instantiate_documentloader env cls params = .ok []) ∧
    (∀ (env : Env) (cls : ClassObject) (params : Params) (n : Val),
      dictGet params "file_filter" = none →
      dictGet params "file_path" = some (.vlist [.vstr "", n]) →
      dictGet params "metadata" = none →
      instantiate_documentloader env cls params = .ok []) := by
  constructor
  · intro env cls params hff hfp hmd
    unfold instantiate_documentloader
    dsimp only
    rw [hff]
    dsimp only
    simp only [bind, Except.bind, pure, Except.pure]
    rw [hfp]
    dsimp only
    have hc1 : dictContains (dictPop params "metadata") "file_path" = true :=
      dictContains_of_get _ _ _
        (by rw [dictGet_dictPop_ne _ _ _ (by decide), hfp])
    have hc2 : (dictGet (dictPop params "metadata") "file_path").getD Val.vnull =
        .vstr "" := by
      rw [dictGet_dictPop_ne _ _ _
        (by decide : (("metadata" : String) == "file_path") = false), hfp]
      rfl
    unfold metadataDecodes at hmd
    rcases hm : dictGet params "metadata" with _ | v
    · simp only [dictGetD, hm, Option.getD_none]
      simp [hc1, hc2, valTruthy, dictGetD]
    · rw [hm] at hmd
      simp only [dictGetD, hm, Option.getD_some]
      cases v
      case vstr s =>
        dsimp only at hmd
        cases hse : s == ""
        · simp only [hse, Bool.false_eq_true, if_false] at hmd
          obtain ⟨w, hw⟩ := Option.isSome_iff_exists.mp hmd
          have hst : (s != "") = true := by simp [bne, hse]
          simp [valTruthy, hst, hw, hc1, hc2, dictGetD]
        · have hs : s = "" := by simpa using hse
          subst hs
          simp [valTruthy, hc1, hc2, dictGetD]
      all_goals simp [hc1, hc2, valTruthy, dictGetD]
  · intro env cls params n hff hfp hmd
    unfold instantiate_documentloader
    dsimp only
    rw [hff]
    dsimp only
    simp only [bind, Except.bind, pure, Except.pure]
    rw [hfp]
    dsimp only
    simp only [bind, Except.bind, pure, Except.pure, List.get?]
    have hget : ∀ (q : Params), dictGet q "file_path" = some (.vstr "") →
        dictGet (dictPop q "metadata") "file_path" = some (.vstr "") := by
      intro q hq
      rw [dictGet_dictPop_ne _ _ _ (by decide), hq]
    cases hcn : cls.name == "ElemUnstructuredLoaderV0"
    · rw [if_neg (by simp [hcn])]
      have hfp2 : dictGet (dictSet params "file_path" (.vstr "")) "file_path" =
          some (.vstr "") := dictGet_dictSet_self _ _ _
      have hm2 : dictGet (dictSet params "file_path" (.vstr "")) "metadata" = none := by
        rw [dictGet_dictSet_ne _ _ _ _ (by decide), hmd]
      simp only [dictGetD, hm2, Option.getD_none]
      simp [dictContains_of_get _ _ _ (hget _ hfp2), dictGetD, hget _ hfp2, valTruthy]
    · rw [if_pos (by simp [hcn])]
      have hfp2 : dictGet (dictSet (dictSet params "file_path" (.vstr ""))
          "file_name" n) "file_path" = some (.vstr "") := by
        rw [dictGet_dictSet_ne _ _ _ _ (by decide), dictGet_dictSet_self]
      have hm2 : dictGet (dictSet (dictSet params "file_path" (.vstr ""))
          "file_name" n) "metadata" = none := by
        rw [dictGet_dictSet_ne _ _ _ _ (by decide),
          dictGet_dictSet_ne _ _ _ _ (by decide), hmd]
      simp only [dictGetD, hm2, Option.getD_none]
      simp [dictContains_of_get _ _ _ (hget _ hfp2), dictGetD, hget _ hfp2, valTruthy]

/-- C9, witness: an empty-string file path with decodable metadata and an
empty-path pair both yield the empty document list. -/
theorem documentloader_empty_path_amended_witness :
    (dictGet [("file_path", Val.vstr ""), ("metadata", Val.vstr "[1]")] "file_path" =
      some (.vstr "")) ∧
    (metadataDecodes [("file_path", Val.vstr ""), ("metadata", Val.vstr "[1]")] = true) ∧
    (instantiate_documentloader env0 clsRecord
        [("file_path", Val.vstr ""), ("metadata", Val.vstr "[1]")] = .ok []) ∧
    (instantiate_documentloader env0 clsRecord
        [("file_path", Val.vlist [.vstr "", .vstr "name.txt"])] = .ok []) :=
  ⟨rfl, rfl,
    documentloader_empty_path_amended.1 env0 clsRecord
      [("file_path", Val.vstr ""), ("metadata", Val.vstr "[1]")] rfl rfl rfl,
    documentloader_empty_path_amended.2 env0 clsRecord
      [("file_path", Val.vlist [.vstr "", .vstr "name.txt"])] (Val.vstr "name.txt")
      rfl rfl rfl⟩

/-- C3: for the permission-checked vectorstore node types the collection
parameters are rewritten to exactly the subset of candidate collections the
directory service returns for the caller identity, and construction is
delegated with those rewritten parameters: for the Milvus backend the
collection names, per-collection embeddings and partition keys are rebuilt
from the permitted rows and the default embedding falls back to the fake
embedding when no collection is permitted (so an empty permitted subset
still reaches construction instead of failing); for the Elasticsearch
backend the index names are rebuilt from the permitted rows. -/
theorem vectorstore_permission_filtering :
    (∀ (env : Env) (cls : ClassObject) (params : Params) (colv : Val)
        (ids : List Val) (ks : List Knowledge),
      dictGet params "user_name" = none →
      dictGet params "search_kwargs" = none →
      dictGet params "search_type" = none →
      dictContains params "documents" = true →
      dictGet params "collection_name" = some colv →
      extract_keys colv = .ok ids →
      dictGet params "_is_check_auth" = none →
      env.judge_knowledge_permission (.vstr "") ids = ks →
      env.vecstore_init cls.name = none →
      dictGet params "texts" = none →
      instantiate_vectorstore env "MilvusWithPermissionCheck" cls params =
        cls.from_documents
          (milvus_rewrite env ks (dictPop params "_is_check_auth"))) ∧
    (∀ (env : Env) (ks : List Knowledge) (params : Params),
      dictGet (milvus_rewrite env ks params) "collection_name" =
        some (.vlist (ks.map (fun k => .vstr k.collection_name))) ∧
      dictGet (milvus_rewrite env ks params) "collection_embeddings" =
        some (.vlist (ks.map (fun k => env.decide_embeddings k.model))) ∧
      dictGet (milvus_rewrite env ks params) "partition_keys" =
        some (.vlist (ks.map (fun k =>
          if k.collection_name.startsWith "partition" then Val.vint k.id
          else Val.vnull))) ∧
      dictGet (milvus_rewrite env ks params) "embedding" =
        some ((ks.map (fun k => env.decide_embeddings k.model)).headD
          env.fake_embedding)) ∧
    (∀ (env : Env) (cls : ClassObject) (params : Params) (colv : Val)
        (ids : List Val) (ks : List Knowledge),
      dictGet params "user_name" = none →
      dictGet params "search_kwargs" = none →
      dictGet params "search_type" = none →
      dictContains params "documents" = true →
      dictGet params "index_name" = some colv →
      extract_keys colv = .ok ids →
      dictGet params "_is_check_auth" = none →
      env.judge_knowledge_permission (.vstr "") ids = ks →
      env.vecstore_init cls.name = none →
      dictGet params "texts" = none →
      instantiate_vectorstore env "ElasticsearchWithPermissionCheck" cls params =
        cls.from_documents (es_rewrite ks (dictPop params "_is_check_auth"))) ∧
    (∀ (ks : List Knowledge) (params : Params),
      dictGet (es_rewrite ks params) "index_name" =
        some (.vlist (ks.map (fun k =>
          .vstr (if k.index_name == "" then k.collection_name else k.index_name))))) := by
  refine ⟨?_, ?_, ?_, ?_⟩
  · intro env cls params colv ids ks hu hsk hst hdoc hcol hkeys hauth hjudge hinit htexts
    have e1 : dictPop params "user_name" = params := dictPop_eq_self _ _ hu
    have e2 : dictPop params "search_kwargs" = params := dictPop_eq_self _ _ hsk
    have e3 : dictPop params "search_type" = params := dictPop_eq_self _ _ hst
    unfold instantiate_vectorstore
    simp only [dictGetD, hu, hsk, hst, Option.getD_none, e1, e2, e3, hdoc, if_true]
    have hfil : vectorstore_filter env "MilvusWithPermissionCheck" (.vstr "") params =
        .ok (milvus_rewrite env ks (dictPop params "_is_check_auth")) := by
      unfold vectorstore_filter
      have hne : ("MilvusWithPermissionCheck" == "ElasticsearchWithPermissionCheck") =
          false := by decide
      simp only [hne, Bool.false_eq_true, if_false, beq_self_eq_true, if_true,
        hcol, hkeys, bind, Except.bind, pure, Except.pure, dictGetD,
        hauth, Option.getD_none, hjudge, valTruthy, ite_true]
    simp only [beq_self_eq_true, if_true, hfil, bind, Except.bind]
    have htx : dictGet (milvus_rewrite env ks (dictPop params "_is_check_auth"))
        "texts" = none := by
      unfold milvus_rewrite
      rw [dictGet_dictSet_ne _ _ _ _ (by decide), dictGet_dictSet_ne _ _ _ _ (by decide),
        dictGet_dictSet_ne _ _ _ _ (by decide), dictGet_dictSet_ne _ _ _ _ (by decide),
        dictGet_dictPop_ne _ _ _ (by decide), htexts]
    simp only [hinit, htx, valTruthy]
    cases hq : cls.from_documents (milvus_rewrite env ks
        (dictPop params "_is_check_auth")) <;> simp [hq, pure, Except.pure]
  · intro env ks params
    unfold milvus_rewrite
    refine ⟨?_, ?_, ?_, ?_⟩
    · rw [dictGet_dictSet_ne _ _ _ _ (by decide), dictGet_dictSet_ne _ _ _ _ (by decide),
        dictGet_dictSet_ne _ _ _ _ (by decide), dictGet_dictSet_self]
    · rw [dictGet_dictSet_ne _ _ _ _ (by decide), dictGet_dictSet_ne _ _ _ _ (by decide),
        dictGet_dictSet_self]
    · rw [dictGet_dictSet_ne _ _ _ _ (by decide), dictGet_dictSet_self]
    · rw [dictGet_dictSet_self]
  · intro env cls params colv ids ks hu hsk hst hdoc hcol hkeys hauth hjudge hinit htexts
    have e1 : dictPop params "user_name" = params := dictPop_eq_self _ _ hu
    have e2 : dictPop params "search_kwargs" = params := dictPop_eq_self _ _ hsk
    have e3 : dictPop params "search_type" = params := dictPop_eq_self _ _ hst
    unfold instantiate_vectorstore
    simp only [dictGetD, hu, hsk, hst, Option.getD_none, e1, e2, e3, hdoc, if_true]
    have hfil : vectorstore_filter env "ElasticsearchWithPermissionCheck" (.vstr "")
        params = .ok (es_rewrite ks (dictPop params "_is_check_auth")) := by
      unfold vectorstore_filter
      have hne : ("ElasticsearchWithPermissionCheck" == "MilvusWithPermissionCheck") =
          false := by decide
      simp only [hne, Bool.false_eq_true, if_false, beq_self_eq_true, if_true,
        hcol, hkeys, bind, Except.bind, pure, Except.pure, dictGetD,
        hauth, Option.getD_none, hjudge, valTruthy, ite_true]
    simp only [beq_self_eq_true, Bool.or_true, if_true, hfil, bind, Except.bind]
    have htx : dictGet (es_rewrite ks (dictPop params "_is_check_auth")) "texts" =
        none := by
      unfold es_rewrite
      rw [dictGet_dictSet_ne _ _ _ _ (by decide), dictGet_dictPop_ne _ _ _ (by decide),
        htexts]
    simp only [hinit, htx, valTruthy]
    cases hq : cls.from_documents (es_rewrite ks (dictPop params "_is_check_auth")) <;>
      simp [hq, pure, Except.pure]
  · intro ks params
    unfold es_rewrite
    rw [dictGet_dictSet_self]

/-- C3, witness: candidates K1,K2 with only K2 permitted rewrite the
collection set to [K2]; an empty permitted subset yields the empty
collection set and the fake embedding, and construction still succeeds. -/
theorem vectorstore_permission_filtering_witness :
    (env0.judge_knowledge_permission (.vstr "")
      [.vint 1, .vint 2] = [⟨2, "K2", "", "m2"⟩]) ∧
    (instantiate_vectorstore env0 "MilvusWithPermissionCheck" clsRecord
        [("collection_name", Val.vlist [.vdict [("key", Val.vint 1)],
          .vdict [("key", Val.vint 2)]]), ("documents", Val.vlist [])] =
      clsRecord.from_documents (milvus_rewrite env0 [⟨2, "K2", "", "m2"⟩]
        (dictPop [("collection_name", Val.vlist [.vdict [("key", Val.vint 1)],
          .vdict [("key", Val.vint 2)]]), ("documents", Val.vlist [])]
          "_is_check_auth"))) ∧
    (dictGet (milvus_rewrite env0 [⟨2, "K2", "", "m2"⟩]
        (dictPop [("collection_name", Val.vlist [.vdict [("key", Val.vint 1)],
          .vdict [("key", Val.vint 2)]]), ("documents", Val.vlist [])]
          "_is_check_auth")) "collection_name" = some (.vlist [.vstr "K2"])) ∧
    (instantiate_vectorstore env0 "MilvusWithPermissionCheck" clsRecord
        [("collection_name", Val.vlist []), ("documents", Val.vlist [])] =
      .ok (.vdict [("collection_name", Val.vlist []), ("documents", Val.vlist []),
        ("collection_embeddings", Val.vlist []), ("partition_keys", Val.vlist []),
        ("embedding", Val.vcallable "FakeEmbedding" [])])) :=
  ⟨rfl,
    vectorstore_permission_filtering.1 env0 clsRecord
      [("collection_name", Val.vlist [.vdict [("key", Val.vint 1)],
        .vdict [("key", Val.vint 2)]]), ("documents", Val.vlist [])]
      (.vlist [.vdict [("key", Val.vint 1)], .vdict [("key", Val.vint 2)]])
      [.vint 1, .vint 2] [⟨2, "K2", "", "m2"⟩]
      rfl rfl rfl rfl rfl rfl rfl rfl rfl rfl,
    (vectorstore_permission_filtering.2.1 env0 [⟨2, "K2", "", "m2"⟩]
      (dictPop [("collection_name", Val.vlist [.vdict [("key", Val.vint 1)],
        .vdict [("key", Val.vint 2)]]), ("documents", Val.vlist [])]
        "_is_check_auth")).1,
    rfl⟩

/-- C5: for every prompt template whose helpers return it with a declared
variable list and no nested sub-template, and with no partial values
supplied, the final variable list is the declared variables partitioned
into human-input first (names absent from the sourceIds mapping) followed
by node-bound (names present in the sourceIds mapping). -/
theorem prompt_variable_ordering
    (hnt : String → ClassObject → Params → Except Err (Params × PromptObj))
    (hfk : PromptObj → Params → Params)
    (hpv : PromptObj → Params → Except Err PromptObj)
    (nt : String) (cls : ClassObject) (params P0 : Params) (vars : List String)
    (id_dict : List (String × List String))
    (h1 : hnt nt cls params = .ok (P0, PromptObj.mk (some vars) none))
    (h2 : hfk (PromptObj.mk (some vars) none) P0 = [])
    (h3 : 1 < ((pyDedupStr vars).filter
        (fun v => !(pyDedupStr (id_dict.map (·.1))).contains v) ++
      (pyDedupStr vars).filter
        (fun v => (pyDedupStr (id_dict.map (·.1))).contains v)).length) :
    instantiate_prompt hnt hfk hpv nt cls params id_dict =
      .ok (PromptObj.mk
        (some ((pyDedupStr vars).filter
            (fun v => !(pyDedupStr (id_dict.map (·.1))).contains v) ++
          (pyDedupStr vars).filter
            (fun v => (pyDedupStr (id_dict.map (·.1))).contains v))) none, []) := by
  unfold instantiate_prompt
  rw [h1]
  dsimp only
  simp only [bind, Except.bind, pure, Except.pure, h2, List.isEmpty_nil, if_true,
    PromptObj.vars]
  rw [if_pos h3]
  rfl

/-- C5, witness: declared variables x, y, z with y and z node-bound yield
the ordered list [x, y, z]. -/
theorem prompt_variable_ordering_witness :
    ((fun (_ : String) (_ : ClassObject) (ps : Params) =>
        (Except.ok (ps, PromptObj.mk (some ["x", "y", "z"]) none) :
          Except Err (Params × PromptObj))) "PromptTemplate" clsRecord [] =
      .ok ([], PromptObj.mk (some ["x", "y", "z"]) none)) ∧
    instantiate_prompt
        (fun _ _ ps => .ok (ps, PromptObj.mk (some ["x", "y", "z"]) none))
        (fun _ _ => []) (fun p _ => .ok p)
        "PromptTemplate" clsRecord [] [("y", ["n1"]), ("z", ["n2"])] =
      .ok (PromptObj.mk (some ["x", "y", "z"]) none, []) :=
  ⟨rfl,
    prompt_variable_ordering
      (fun _ _ ps => .ok (ps, PromptObj.mk (some ["x", "y", "z"]) none))
      (fun _ _ => []) (fun p _ => .ok p)
      "PromptTemplate" clsRecord [] [] ["x", "y", "z"]
      [("y", ["n1"]), ("z", ["n2"])] rfl rfl (by decide)⟩

/-- The pair expansion at a two-element list pair. -/
theorem report_pair_triple_pair (env : Env) (c : Val) (k : String) (a b : Val)
    (hk : first_input_key env c = .ok k) :
    report_pair_triple env c (.vlist [a, b]) =
      .ok (.vdict [("object", c), ("node_id", a), ("input", .vdict [(k, b)])]) := by
  unfold report_pair_triple
  simp [valIndex, hk, bind, Except.bind, pure, Except.pure]

/-- The pair expansion at a two-element tuple pair. -/
theorem report_pair_triple_tuple (env : Env) (c : Val) (k : String) (a b : Val)
    (hk : first_input_key env c = .ok k) :
    report_pair_triple env c (.vtuple [a, b]) =
      .ok (.vdict [("object", c), ("node_id", a), ("input", .vdict [(k, b)])]) := by
  unfold report_pair_triple
  simp [valIndex, hk, bind, Except.bind, pure, Except.pure]

/-- A list of pairs expands into one triple per pair. -/
theorem mapME_report_pairs (env : Env) (c : Val) (k : String)
    (prs : List (Val × Val)) (hk : first_input_key env c = .ok k) :
    mapME (report_pair_triple env c) (prs.map (fun ab => Val.vlist [ab.1, ab.2])) =
      .ok (prs.map (fun ab => Val.vdict
        [("object", c), ("node_id", ab.1), ("input", .vdict [(k, ab.2)])])) := by
  induction prs with
  | nil => rfl
  | cons p tl ih =>
    simp only [List.map_cons, mapME, bind, Except.bind]
    rw [report_pair_triple_pair _ _ _ _ _ hk, ih]
    simp [pure, Except.pure]

/-- C6: the `Report` reassembly of the chains list and the preset-question
mapping.  A preset value that is a single (non-list) pair yields exactly
one triple whose input maps the first input key of the chain to the text
of the pair; a list-valued preset yields one triple per contained pair, all
sharing the same chain object; a chain id with no preset entry yields one
triple with the default input mapping the first input key to `start`; and
the `Report` strategy constructs the node on the parameters whose
`chains` entry is the flattened triple list. -/
theorem report_preset_reassembly :
    (∀ (env : Env) (chains : Val) (preset : List (String × Val)) (idx : Nat)
        (id : String) (c : Val) (k : String) (tgt txt : Val),
      valIndex chains idx = .ok c →
      first_input_key env c = .ok k →
      lookupStr preset id = some (.vtuple [tgt, txt]) →
      report_triples env chains preset idx id =
        .ok [.vdict [("object", c), ("node_id", tgt),
          ("input", .vdict [(k, txt)])]]) ∧
    (∀ (env : Env) (chains : Val) (preset : List (String × Val)) (idx : Nat)
        (id : String) (c : Val) (k : String) (prs : List (Val × Val)),
      valIndex chains idx = .ok c →
      first_input_key env c = .ok k →
      lookupStr preset id = some (.vlist (prs.map (fun ab => Val.vlist [ab.1, ab.2]))) →
      report_triples env chains preset idx id =
        .ok (prs.map (fun ab => Val.vdict
          [("object", c), ("node_id", ab.1), ("input", .vdict [(k, ab.2)])]))) ∧
    (∀ (env : Env) (chains : Val) (preset : List (String × Val)) (idx : Nat)
        (id : String) (c : Val) (k : String),
      valIndex chains idx = .ok c →
      first_input_key env c = .ok k →
      lookupStr preset id = none →
      report_triples env chains preset idx id =
        .ok [.vdict [("object", c), ("input", .vdict [(k, .vstr "start")])]]) ∧
    (∀ (env : Env) (cls : ClassObject) (params : Params)
        (id_dict : List (String × List String)) (preset : List (String × Val))
        (cs : List Val) (idsl : List String) (cl : List Val),
      dictGet params PRESET_QUESTION = some (.vdict preset) →
      dictGet params "chains" = some (.vlist cs) →
      lookupStr id_dict "chains" = some idsl →
      dictGet params "variables" = none →
      lookupStr id_dict "variables" = none →
      report_chain_list env (.vlist cs) idsl preset = .ok cl →
      instantiate_input_output env "Report" cls params id_dict =
        cls.call (dictSet (dictSet (dictPop params PRESET_QUESTION) "chains"
          (.vlist cl)) "variables" (.vlist []))) := by
  refine ⟨?_, ?_, ?_, ?_⟩
  · intro env chains preset idx id c k tgt txt hc hk hp
    unfold report_triples
    rw [hc]
    simp only [bind, Except.bind, pure, Except.pure, hp]
    rw [report_pair_triple_tuple _ _ _ _ _ hk]
  · intro env chains preset idx id c k prs hc hk hp
    unfold report_triples
    rw [hc]
    simp only [bind, Except.bind, pure, Except.pure, hp]
    rw [mapME_report_pairs _ _ _ _ hk]
  · intro env chains preset idx id c k hc hk hp
    unfold report_triples
    rw [hc]
    simp only [bind, Except.bind, pure, Except.pure, hp, hk]
  · intro env cls params id_dict preset cs idsl cl hp hc hi hv hvi hcl
    unfold instantiate_input_output
    simp only [beq_self_eq_true, if_true]
    rw [hp]
    dsimp only
    simp only [bind, Except.bind, pure, Except.pure]
    have hc2 : dictGetD (dictPop params PRESET_QUESTION) "chains" (.vlist []) =
        .vlist cs := by
      simp [dictGetD, dictGet_dictPop_ne params PRESET_QUESTION "chains" (by decide), hc]
    rw [hc2, hi]
    simp only [Option.getD_some]
    rw [hcl]
    dsimp only
    rw [hvi]
    rfl

/-- C6, witness: a single-pair preset yields one triple with the text
keyed by the first input key; a two-pair list preset yields two triples
sharing the chain object; a missing preset yields the default `start`
triple; and the full `Report` build passes the flattened list to
construction. -/
theorem report_preset_reassembly_witness :
    (report_triples env0 (.vlist [.vobj 7])
        [("n1", Val.vtuple [.vstr "c1", .vstr "hello"])] 0 "n1" =
      .ok [.vdict [("object", .vobj 7), ("node_id", .vstr "c1"),
        ("input", .vdict [("text", .vstr "hello")])]]) ∧
    (report_triples env0 (.vlist [.vobj 7])
        [("n1", Val.vlist [.vlist [.vstr "c1", .vstr "a"],
          .vlist [.vstr "c2", .vstr "b"]])] 0 "n1" =
      .ok [.vdict [("object", .vobj 7), ("node_id", .vstr "c1"),
          ("input", .vdict [("text", .vstr "a")])],
        .vdict [("object", .vobj 7), ("node_id", .vstr "c2"),
          ("input", .vdict [("text", .vstr "b")])]]) ∧
    (report_triples env0 (.vlist [.vobj 7]) [] 0 "n1" =
      .ok [.vdict [("object", .vobj 7),
        ("input", .vdict [("text", .vstr "start")])]]) ∧
    (instantiate_input_output env0 "Report" clsRecord
        [("preset_question", Val.vdict [("n1", Val.vtuple [.vstr "c1", .vstr "hello"])]),
          ("chains", Val.vlist [.vobj 7])]
        [("chains", ["n1"])] =
      clsRecord.call [("chains", Val.vlist [.vdict [("object", .vobj 7),
        ("node_id", .vstr "c1"), ("input", .vdict [("text", .vstr "hello")])]]),
        ("variables", Val.vlist [])]) :=
  ⟨report_preset_reassembly.1 env0 (.vlist [.vobj 7])
      [("n1", Val.vtuple [.vstr "c1", .vstr "hello"])] 0 "n1" (.vobj 7) "text"
      (.vstr "c1") (.vstr "hello") rfl rfl rfl,
    report_preset_reassembly.2.1 env0 (.vlist [.vobj 7])
      [("n1", Val.vlist [.vlist [.vstr "c1", .vstr "a"],
        .vlist [.vstr "c2", .vstr "b"]])] 0 "n1" (.vobj 7) "text"
      [(.vstr "c1", .vstr "a"), (.vstr "c2", .vstr "b")] rfl rfl rfl,
    report_preset_reassembly.2.2.1 env0 (.vlist [.vobj 7]) [] 0 "n1" (.vobj 7)
      "text" rfl rfl rfl,
    report_preset_reassembly.2.2.2 env0 clsRecord
      [("preset_question", Val.vdict [("n1", Val.vtuple [.vstr "c1", .vstr "hello"])]),
        ("chains", Val.vlist [.vobj 7])]
      [("chains", ["n1"])]
      [("n1", Val.vtuple [.vstr "c1", .vstr "hello"])] [.vobj 7] ["n1"]
      [.vdict [("object", .vobj 7), ("node_id", .vstr "c1"),
        ("input", .vdict [("text", .vstr "hello")])]]
      rfl rfl rfl rfl rfl rfl⟩

end BishengLoading
